import Mathlib

/-!
Tilt-controlled bat-and-ball game (`src/App.js`)

A shallow embedding of the two callbacks of `GameComponent`:

* the `DeviceMotion` listener (lines 67-83), which maps the tilt angle `gamma`
  to the horizontal position of the bat, and
* the `update` system (lines 90-124), which moves the ball, reflects it on the
  walls and on the bat and stops the game on a miss.

JavaScript numbers are modelled by exact rationals: every number is finite and
arithmetic does not round.  Where rounding decides a property, the update system
is also given in rounded arithmetic (`updateWith`), with binary64 rounding
(`toDouble`) as the arithmetic of the program.  Only for a sample whose `gamma`
is missing is the value `NaN` tracked, in a separate description of the
listener.  The window dimensions `width` and `height`
(line 7) are parameters of the model.  Mutation of the entity objects is
modelled by passing the state explicitly; `setRunning(false)` writes the
`running` field of the state.
-/

namespace BatBall

/-! ## Data model -/

/-- The object literal `{ x, y }` used for `position` and `velocity`. -/
structure Vec where
  x : ℚ
  y : ℚ
  deriving DecidableEq, Repr

/-- The ball entity (lines 14-34), without its renderer. -/
structure Ball where
  position : Vec
  size : ℚ
  velocity : Vec
  deriving DecidableEq, Repr

/-- The bat entity (lines 37-56), without its renderer. -/
structure Bat where
  position : Vec
  size : ℚ
  deriving DecidableEq, Repr

/-- The entity set `{ ball, bat }` stored in `entitiesRef` (line 59). -/
structure Entities where
  ball : Ball
  bat : Bat
  deriving DecidableEq, Repr

/-- The state of `GameComponent`: the entities and the React state `running`. -/
structure Game where
  entities : Entities
  running : Bool
  deriving DecidableEq, Repr

/-- The field `rotation` of a device-motion sample, reduced to its `gamma`. -/
structure Rotation where
  gamma : ℚ
  deriving DecidableEq, Repr

/-- A device-motion sample `data`; `rotation` may be missing. -/
structure MotionData where
  rotation : Option Rotation
  deriving DecidableEq, Repr

/-- The state at mount: `useState(true)` and the two entity literals. -/
def initialGame (width height : ℚ) : Game :=
  { entities :=
      { ball :=
          { position := { x := width / 2 - 25, y := height / 2 }
            size := 50
            velocity := { x := 1, y := 1 } }
        bat :=
          { position := { x := width / 2 - 50, y := height - 20 }
            size := 100 } }
    running := true }

/-! ## The sensor listener (lines 67-83) -/

/-- The constant `maxTilt` (line 73). -/
def maxTilt : ℚ := 1 / 2

/-- Line 75: `Math.max(-maxTilt, Math.min(maxTilt, gamma))`. -/
def clampedGamma (gamma : ℚ) : ℚ :=
  max (-maxTilt) (min maxTilt gamma)

/-- Line 77: `(clampedGamma + maxTilt) / (2 * maxTilt)`. -/
def normalized (gamma : ℚ) : ℚ :=
  (clampedGamma gamma + maxTilt) / (2 * maxTilt)

/-- Line 79: `normalized * (width - bat.size)`. -/
def newBatX (width batSize gamma : ℚ) : ℚ :=
  normalized gamma * (width - batSize)

/-- The callback given to `DeviceMotion.addListener`: when `data.rotation` is
present the bat's `position.x` is overwritten, otherwise nothing happens. -/
def onDeviceMotion (width : ℚ) (data : MotionData) (g : Game) : Game :=
  match data.rotation with
  | some rotation =>
      { g with
        entities :=
          { g.entities with
            bat :=
              { g.entities.bat with
                position :=
                  { g.entities.bat.position with
                    x := newBatX width g.entities.bat.size rotation.gamma } } } }
  | none => g

/-! ## The update system (lines 90-124) -/

/-- Lines 95-96: the position advances by velocity times `time.delta`, in exact
arithmetic (`moveBallWith` rounds). -/
def moveBall (b : Ball) (delta : ℚ) : Ball :=
  { b with
    position :=
      { x := b.position.x + b.velocity.x * delta
        y := b.position.y + b.velocity.y * delta } }

/-- Lines 99-101: the left wall. -/
def hitLeftWall (b : Ball) : Ball :=
  if b.position.x < 0 then
    { b with velocity := { b.velocity with x := |b.velocity.x| } }
  else b

/-- Lines 102-104: the right wall. -/
def hitRightWall (width : ℚ) (b : Ball) : Ball :=
  if b.position.x + b.size > width then
    { b with velocity := { b.velocity with x := -|b.velocity.x| } }
  else b

/-- Lines 105-107: the top wall. -/
def hitTopWall (b : Ball) : Ball :=
  if b.position.y < 0 then
    { b with velocity := { b.velocity with y := |b.velocity.y| } }
  else b

/-- Lines 99-107: the three wall checks, in the order of the source. -/
def wallCollisions (width : ℚ) (b : Ball) : Ball :=
  hitTopWall (hitRightWall width (hitLeftWall b))

/-- The outer test of line 110: the ball moves down and its lower edge has
reached the line of the bat, in exact arithmetic (`inBatRegionWith` rounds). -/
def inBatRegion (height : ℚ) (b : Ball) : Prop :=
  b.velocity.y > 0 ∧ b.position.y + b.size ≥ height - 20

instance (height : ℚ) (b : Ball) : Decidable (inBatRegion height b) := by
  unfold inBatRegion; infer_instance

/-- The inner test of lines 112-113: ball and bat overlap horizontally. -/
def overlapsBat (b : Ball) (bat : Bat) : Prop :=
  b.position.x + b.size ≥ bat.position.x ∧ b.position.x ≤ bat.position.x + bat.size

instance (b : Ball) (bat : Bat) : Decidable (overlapsBat b bat) := by
  unfold overlapsBat; infer_instance

/-- Lines 110-121: bounce on the bat, or `setRunning(false)` on a miss.  The
result is the ball and the value of `running` after the block. -/
def batCollision (height : ℚ) (b : Ball) (bat : Bat) (running : Bool) : Ball × Bool :=
  if inBatRegion height b then
    if overlapsBat b bat then
      ({ b with velocity := { b.velocity with y := -|b.velocity.y| } }, running)
    else
      (b, false)
  else (b, running)

/-- The system `update(entities, { time })` together with its effect on
`running`; `delta` is `time.delta`. -/
def update (width height : ℚ) (g : Game) (delta : ℚ) : Game :=
  let ballEntity := wallCollisions width (moveBall g.entities.ball delta)
  let r := batCollision height ballEntity g.entities.bat g.running
  { entities := { ball := r.1, bat := g.entities.bat }
    running := r.2 }

/-- Modelled from the spec: the frame driver.  `GameEngine` comes from the package
`react-native-game-engine` and is not part of the source; lines 128-133 only hand
it `running={running}` and `systems={[update]}`.  The specification has a stopped
game stay frozen ("once `running = false`, further frame ticks must not mutate
ball or paddle state"), so a frame runs `update` only while `running` is true. -/
def frameTick (width height : ℚ) (g : Game) (delta : ℚ) : Game :=
  if g.running then update width height g delta else g

/-- The two callbacks that drive the component. -/
inductive Event where
  | tick (delta : ℚ)
  | sample (data : MotionData)
  deriving DecidableEq, Repr

/-- The reaction of the component to one event. -/
def step (width height : ℚ) (g : Game) : Event → Game
  | .tick delta => frameTick width height g delta
  | .sample data => onDeviceMotion width data g

/-- The state after a sequence of events, oldest first. -/
def run (width height : ℚ) (g : Game) (events : List Event) : Game :=
  events.foldl (step width height) g


/-! ## Concrete states used as test inputs -/

/-- A game in a `400 × 800` window with the ball at `(x, y)`, velocity `(vx, vy)` and
the bat at `x = 150`; sizes are those of the source (ball 50, bat 100). -/
def sceneAt (x y vx vy : ℚ) : Game :=
  { entities :=
      { ball := { position := { x := x, y := y }, size := 50, velocity := { x := vx, y := vy } }
        bat := { position := { x := 150, y := 780 }, size := 100 } }
    running := true }

/-- A sample that carries the tilt angle `gamma`. -/
def tilt (gamma : ℚ) : MotionData :=
  { rotation := some { gamma := gamma } }

/-- A sample without rotation data: `data.rotation` is missing. -/
def noRotation : MotionData :=
  { rotation := none }

/-! ## The sensor listener on samples whose `gamma` may be missing -/

/-- A JavaScript number as the listener can compute one: a finite value or `NaN`. -/
inductive JSNumber where
  | finite (value : ℚ)
  | nan
  deriving DecidableEq, Repr

/-- An arithmetic step whose other operands are finite constants: a finite operand is
computed with, `NaN` gives `NaN` (so do `Math.min`, `Math.max`, `+`, `/` and `*`). -/
def JSNumber.lift (f : ℚ → ℚ) : JSNumber → JSNumber
  | .finite value => .finite (f value)
  | .nan => .nan

/-- The number a property read gives to arithmetic: `undefined` becomes `NaN`. -/
def toNumber : Option ℚ → JSNumber
  | some value => .finite value
  | none => .nan

/-- The object `data.rotation` as received: its property `gamma` may be missing. -/
structure RawRotation where
  gamma : Option ℚ
  deriving DecidableEq, Repr

/-- A device-motion sample as received. -/
structure RawMotionData where
  rotation : Option RawRotation
  deriving DecidableEq, Repr

/-- Lines 71-79 on a `gamma` that may be `undefined`: clamp, normalize, scale. -/
def newBatXRaw (width batSize : ℚ) (gamma : Option ℚ) : JSNumber :=
  let clamped := (toNumber gamma).lift (fun v => max (-maxTilt) (min maxTilt v))
  let norm := clamped.lift (fun c => (c + maxTilt) / (2 * maxTilt))
  norm.lift (fun t => t * (width - batSize))

/-- The assignment of line 81 that the listener performs on a sample: `none` when the
guard `if (data.rotation)` fails, otherwise the value stored in the bat's `position.x`. -/
def batXWrite (width batSize : ℚ) (data : RawMotionData) : Option JSNumber :=
  match data.rotation with
  | some rotation => some (newBatXRaw width batSize rotation.gamma)
  | none => none

/-- The game of `sceneAt` after it has been stopped: `running` is false. -/
def stoppedAt (x y vx vy : ℚ) : Game :=
  { sceneAt x y vx vy with running := false }

/-! ## Floating-point arithmetic

The program computes in binary64.  For the properties that depend on rounding, the
update system is given a second time with a rounding operator applied after every
product, sum and difference; `toDouble` is the rounding of binary64. -/

/-- The nearest integer, a tie going to the even one. -/
def roundHalfEven (r : ℚ) : ℤ :=
  if r - ⌊r⌋ < 1 / 2 then ⌊r⌋
  else if 1 / 2 < r - ⌊r⌋ then ⌊r⌋ + 1
  else if ⌊r⌋ % 2 = 0 then ⌊r⌋ else ⌊r⌋ + 1

/-- The exponent of the last place of a binary64 number of magnitude `a`: 52 below
the exponent of `a`, and `-1074` throughout the subnormal range. -/
def ulpExponent (a : ℚ) : ℤ :=
  max (Int.log 2 a) (-1022) - 52

/-- A magnitude `a ≥ 0` rounded to 53 significant bits. -/
def roundMagnitude (a : ℚ) : ℚ :=
  roundHalfEven (a / 2 ^ ulpExponent a) * 2 ^ ulpExponent a

/-- The binary64 number nearest to `q`, ties to even.  Overflow to `Infinity` (a
magnitude of `2 ^ 1024` or more) is not represented. -/
def toDouble (q : ℚ) : ℚ :=
  if q < 0 then -roundMagnitude (-q) else roundMagnitude q

/-- What the proofs use of a rounding operator: it is monotone and leaves zero alone.
Exact arithmetic (`id`) and binary64 (`toDouble`) both qualify. -/
structure IsRounding (rnd : ℚ → ℚ) : Prop where
  mono : Monotone rnd
  zero : rnd 0 = 0

/-! ## The update system in rounded arithmetic -/

/-- Lines 95-96, each product and each sum rounded. -/
def moveBallWith (rnd : ℚ → ℚ) (b : Ball) (delta : ℚ) : Ball :=
  { b with
    position :=
      { x := rnd (b.position.x + rnd (b.velocity.x * delta))
        y := rnd (b.position.y + rnd (b.velocity.y * delta)) } }

/-- Lines 102-104, the sum `position.x + size` rounded. -/
def hitRightWallWith (rnd : ℚ → ℚ) (width : ℚ) (b : Ball) : Ball :=
  if rnd (b.position.x + b.size) > width then
    { b with velocity := { b.velocity with x := -|b.velocity.x| } }
  else b

/-- Lines 99-107; the left and the top check compare a stored number with zero and
take an absolute value, neither of which rounds. -/
def wallCollisionsWith (rnd : ℚ → ℚ) (width : ℚ) (b : Ball) : Ball :=
  hitTopWall (hitRightWallWith rnd width (hitLeftWall b))

/-- The outer test of line 110, the sum and the difference rounded. -/
def inBatRegionWith (rnd : ℚ → ℚ) (height : ℚ) (b : Ball) : Prop :=
  b.velocity.y > 0 ∧ rnd (b.position.y + b.size) ≥ rnd (height - 20)

instance (rnd : ℚ → ℚ) (height : ℚ) (b : Ball) : Decidable (inBatRegionWith rnd height b) := by
  unfold inBatRegionWith; infer_instance

/-- The inner test of lines 112-113, both sums rounded. -/
def overlapsBatWith (rnd : ℚ → ℚ) (b : Ball) (bat : Bat) : Prop :=
  rnd (b.position.x + b.size) ≥ bat.position.x ∧
    b.position.x ≤ rnd (bat.position.x + bat.size)

instance (rnd : ℚ → ℚ) (b : Ball) (bat : Bat) : Decidable (overlapsBatWith rnd b bat) := by
  unfold overlapsBatWith; infer_instance

/-- Lines 110-121 in rounded arithmetic. -/
def batCollisionWith (rnd : ℚ → ℚ) (height : ℚ) (b : Ball) (bat : Bat) (running : Bool) :
    Ball × Bool :=
  if inBatRegionWith rnd height b then
    if overlapsBatWith rnd b bat then
      ({ b with velocity := { b.velocity with y := -|b.velocity.y| } }, running)
    else
      (b, false)
  else (b, running)

/-- The system `update` in rounded arithmetic; `updateWith id` is `update`, and
`updateWith toDouble` is the system as the program computes it. -/
def updateWith (rnd : ℚ → ℚ) (width height : ℚ) (g : Game) (delta : ℚ) : Game :=
  let ballEntity := wallCollisionsWith rnd width (moveBallWith rnd g.entities.ball delta)
  let r := batCollisionWith rnd height ballEntity g.entities.bat g.running
  { entities := { ball := r.1, bat := g.entities.bat }
    running := r.2 }

/-! ## Test inputs in binary64 -/

/-- The number `5.3` as binary64 holds it. -/
def x5_3 : ℚ := 5967269506265907 / 1125899906842624

/-- The number `16.7` as binary64 holds it. -/
def d16_7 : ℚ := 4700632111067955 / 281474976710656

/-- The binary64 number `162.0761462041773`. -/
def d162 : ℚ := 2851273717385855 / 17592186044416

/-- The binary64 number `16.666666666666664`. -/
def y16_6 : ℚ := 2345624805922133 / 140737488355328

/-- The binary64 number `16.666666666666668`, the one next above `y16_6`. -/
def d16_6 : ℚ := 4691249611844267 / 281474976710656

/-! ## Facts about the sensor listener -/

theorem clampedGamma_lower (gamma : ℚ) : -maxTilt ≤ clampedGamma gamma :=
  le_max_left _ _

theorem clampedGamma_upper (gamma : ℚ) : clampedGamma gamma ≤ maxTilt := by
  unfold clampedGamma
  exact max_le (by norm_num [maxTilt]) (min_le_left _ _)

theorem clampedGamma_mono {a b : ℚ} (h : a ≤ b) : clampedGamma a ≤ clampedGamma b := by
  unfold clampedGamma
  exact max_le_max (le_refl _) (min_le_min (le_refl _) h)

theorem normalized_eq (gamma : ℚ) : normalized gamma = clampedGamma gamma + 1 / 2 := by
  unfold normalized
  norm_num [maxTilt]

theorem normalized_nonneg (gamma : ℚ) : 0 ≤ normalized gamma := by
  have h := clampedGamma_lower gamma
  rw [normalized_eq]
  norm_num [maxTilt] at h
  linarith

theorem normalized_le_one (gamma : ℚ) : normalized gamma ≤ 1 := by
  have h := clampedGamma_upper gamma
  rw [normalized_eq]
  norm_num [maxTilt] at h
  linarith

theorem normalized_mono {a b : ℚ} (h : a ≤ b) : normalized a ≤ normalized b := by
  have := clampedGamma_mono h
  rw [normalized_eq, normalized_eq]
  linarith

theorem onDeviceMotion_tilt (width gamma : ℚ) (g : Game) :
    onDeviceMotion width (tilt gamma) g =
      { g with
        entities :=
          { g.entities with
            bat :=
              { g.entities.bat with
                position :=
                  { g.entities.bat.position with
                    x := newBatX width g.entities.bat.size gamma } } } } :=
  rfl

theorem onDeviceMotion_x (width gamma : ℚ) (g : Game) :
    (onDeviceMotion width (tilt gamma) g).entities.bat.position.x =
      newBatX width g.entities.bat.size gamma :=
  rfl

theorem onDeviceMotion_running (width : ℚ) (data : MotionData) (g : Game) :
    (onDeviceMotion width data g).running = g.running := by
  unfold onDeviceMotion
  cases data.rotation <;> rfl

/-! ## Facts about the stages of `update` -/

theorem hitLeftWall_position (b : Ball) : (hitLeftWall b).position = b.position := by
  unfold hitLeftWall; split <;> rfl

theorem hitLeftWall_size (b : Ball) : (hitLeftWall b).size = b.size := by
  unfold hitLeftWall; split <;> rfl

theorem hitLeftWall_vy (b : Ball) : (hitLeftWall b).velocity.y = b.velocity.y := by
  unfold hitLeftWall; split <;> rfl

theorem hitLeftWall_vx (b : Ball) :
    (hitLeftWall b).velocity.x = if b.position.x < 0 then |b.velocity.x| else b.velocity.x := by
  unfold hitLeftWall; split <;> rfl

theorem hitRightWall_position (width : ℚ) (b : Ball) :
    (hitRightWall width b).position = b.position := by
  unfold hitRightWall; split <;> rfl

theorem hitRightWall_size (width : ℚ) (b : Ball) : (hitRightWall width b).size = b.size := by
  unfold hitRightWall; split <;> rfl

theorem hitRightWall_vy (width : ℚ) (b : Ball) :
    (hitRightWall width b).velocity.y = b.velocity.y := by
  unfold hitRightWall; split <;> rfl

theorem hitRightWall_vx (width : ℚ) (b : Ball) :
    (hitRightWall width b).velocity.x =
      if b.position.x + b.size > width then -|b.velocity.x| else b.velocity.x := by
  unfold hitRightWall; split <;> rfl

theorem hitTopWall_position (b : Ball) : (hitTopWall b).position = b.position := by
  unfold hitTopWall; split <;> rfl

theorem hitTopWall_size (b : Ball) : (hitTopWall b).size = b.size := by
  unfold hitTopWall; split <;> rfl

theorem hitTopWall_vx (b : Ball) : (hitTopWall b).velocity.x = b.velocity.x := by
  unfold hitTopWall; split <;> rfl

theorem hitTopWall_vy (b : Ball) :
    (hitTopWall b).velocity.y = if b.position.y < 0 then |b.velocity.y| else b.velocity.y := by
  unfold hitTopWall; split <;> rfl

theorem wallCollisions_position (width : ℚ) (b : Ball) :
    (wallCollisions width b).position = b.position := by
  unfold wallCollisions
  rw [hitTopWall_position, hitRightWall_position, hitLeftWall_position]

theorem wallCollisions_size (width : ℚ) (b : Ball) : (wallCollisions width b).size = b.size := by
  unfold wallCollisions
  rw [hitTopWall_size, hitRightWall_size, hitLeftWall_size]

theorem wallCollisions_vy (width : ℚ) (b : Ball) :
    (wallCollisions width b).velocity.y =
      if b.position.y < 0 then |b.velocity.y| else b.velocity.y := by
  unfold wallCollisions
  rw [hitTopWall_vy, hitRightWall_position, hitLeftWall_position, hitRightWall_vy,
    hitLeftWall_vy]

theorem wallCollisions_vx (width : ℚ) (b : Ball) :
    (wallCollisions width b).velocity.x =
      if b.position.x + b.size > width then -|b.velocity.x|
      else if b.position.x < 0 then |b.velocity.x| else b.velocity.x := by
  unfold wallCollisions
  rw [hitTopWall_vx, hitRightWall_vx, hitLeftWall_position, hitLeftWall_size, hitLeftWall_vx]
  by_cases h : b.position.x < 0 <;> simp [h]

theorem overlapsBat_wallCollisions (width : ℚ) (b : Ball) (bat : Bat) :
    overlapsBat (wallCollisions width b) bat ↔ overlapsBat b bat := by
  unfold overlapsBat
  rw [wallCollisions_position, wallCollisions_size]

theorem moveBall_x (b : Ball) (delta : ℚ) :
    (moveBall b delta).position.x = b.position.x + b.velocity.x * delta :=
  rfl

theorem moveBall_y (b : Ball) (delta : ℚ) :
    (moveBall b delta).position.y = b.position.y + b.velocity.y * delta :=
  rfl

theorem moveBall_size (b : Ball) (delta : ℚ) : (moveBall b delta).size = b.size :=
  rfl

theorem moveBall_velocity (b : Ball) (delta : ℚ) : (moveBall b delta).velocity = b.velocity :=
  rfl

theorem batCollision_position (height : ℚ) (b : Ball) (bat : Bat) (r : Bool) :
    (batCollision height b bat r).1.position = b.position := by
  unfold batCollision; split_ifs <;> rfl

theorem batCollision_size (height : ℚ) (b : Ball) (bat : Bat) (r : Bool) :
    (batCollision height b bat r).1.size = b.size := by
  unfold batCollision; split_ifs <;> rfl

theorem batCollision_vx (height : ℚ) (b : Ball) (bat : Bat) (r : Bool) :
    (batCollision height b bat r).1.velocity.x = b.velocity.x := by
  unfold batCollision; split_ifs <;> rfl

theorem batCollision_vy (height : ℚ) (b : Ball) (bat : Bat) (r : Bool) :
    (batCollision height b bat r).1.velocity.y =
      if inBatRegion height b ∧ overlapsBat b bat then -|b.velocity.y| else b.velocity.y := by
  unfold batCollision; split_ifs <;> simp_all

theorem batCollision_running (height : ℚ) (b : Ball) (bat : Bat) (r : Bool) :
    (batCollision height b bat r).2 =
      if inBatRegion height b ∧ ¬ overlapsBat b bat then false else r := by
  unfold batCollision; split_ifs <;> simp_all

theorem update_ball (width height : ℚ) (g : Game) (delta : ℚ) :
    (update width height g delta).entities.ball =
      (batCollision height (wallCollisions width (moveBall g.entities.ball delta))
        g.entities.bat g.running).1 :=
  rfl

theorem update_bat (width height : ℚ) (g : Game) (delta : ℚ) :
    (update width height g delta).entities.bat = g.entities.bat :=
  rfl

theorem update_running (width height : ℚ) (g : Game) (delta : ℚ) :
    (update width height g delta).running =
      (batCollision height (wallCollisions width (moveBall g.entities.ball delta))
        g.entities.bat g.running).2 :=
  rfl

theorem update_running_of_stopped (width height : ℚ) (g : Game) (delta : ℚ)
    (h : g.running = false) : (update width height g delta).running = false := by
  rw [update_running, batCollision_running, h]
  simp

theorem step_running_of_stopped (width height : ℚ) (g : Game) (e : Event)
    (h : g.running = false) : (step width height g e).running = false := by
  cases e with
  | tick delta => simp [step, frameTick, h]
  | sample data => simp [step, onDeviceMotion_running, h]

theorem run_running_of_stopped (width height : ℚ) (events : List Event) :
    ∀ g : Game, g.running = false → (run width height g events).running = false := by
  induction events with
  | nil => intro g h; simpa [run] using h
  | cons e rest ih =>
      intro g h
      have := ih (step width height g e) (step_running_of_stopped width height g e h)
      simpa [run] using this

theorem run_append (width height : ℚ) (g : Game) (xs ys : List Event) :
    run width height g (xs ++ ys) = run width height (run width height g xs) ys := by
  simp [run, List.foldl_append]


theorem update_x (W H delta : ℚ) (g : Game) :
    (update W H g delta).entities.ball.position.x =
      g.entities.ball.position.x + g.entities.ball.velocity.x * delta := by
  rw [update_ball, batCollision_position, wallCollisions_position, moveBall_x]

theorem update_y (W H delta : ℚ) (g : Game) :
    (update W H g delta).entities.ball.position.y =
      g.entities.ball.position.y + g.entities.ball.velocity.y * delta := by
  rw [update_ball, batCollision_position, wallCollisions_position, moveBall_y]

theorem update_size (W H delta : ℚ) (g : Game) :
    (update W H g delta).entities.ball.size = g.entities.ball.size := by
  rw [update_ball, batCollision_size, wallCollisions_size, moveBall_size]

theorem update_vx (W H delta : ℚ) (g : Game) :
    (update W H g delta).entities.ball.velocity.x =
      if (moveBall g.entities.ball delta).position.x + g.entities.ball.size > W then
        -|g.entities.ball.velocity.x|
      else if (moveBall g.entities.ball delta).position.x < 0 then |g.entities.ball.velocity.x|
      else g.entities.ball.velocity.x := by
  rw [update_ball, batCollision_vx, wallCollisions_vx, moveBall_size, moveBall_velocity]

theorem update_vy (W H delta : ℚ) (g : Game) :
    (update W H g delta).entities.ball.velocity.y =
      if inBatRegion H (wallCollisions W (moveBall g.entities.ball delta)) ∧
          overlapsBat (wallCollisions W (moveBall g.entities.ball delta)) g.entities.bat then
        -|(wallCollisions W (moveBall g.entities.ball delta)).velocity.y|
      else (wallCollisions W (moveBall g.entities.ball delta)).velocity.y := by
  rw [update_ball, batCollision_vy]

/-! ## Facts about binary64 rounding -/

theorem roundHalfEven_intCast (n : ℤ) : roundHalfEven (n : ℚ) = n := by
  unfold roundHalfEven
  simp

theorem floor_le_roundHalfEven (r : ℚ) : ⌊r⌋ ≤ roundHalfEven r := by
  unfold roundHalfEven
  split_ifs <;> omega

theorem roundHalfEven_le_floor_add_one (r : ℚ) : roundHalfEven r ≤ ⌊r⌋ + 1 := by
  unfold roundHalfEven
  split_ifs <;> omega

theorem roundHalfEven_mono {r s : ℚ} (h : r ≤ s) : roundHalfEven r ≤ roundHalfEven s := by
  rcases lt_or_eq_of_le (Int.floor_mono h) with hlt | heq
  · calc roundHalfEven r ≤ ⌊r⌋ + 1 := roundHalfEven_le_floor_add_one r
      _ ≤ ⌊s⌋ := hlt
      _ ≤ roundHalfEven s := floor_le_roundHalfEven s
  · have hfr : r - ⌊r⌋ ≤ s - ⌊s⌋ := by rw [heq]; linarith
    unfold roundHalfEven
    rw [heq]
    rw [heq] at hfr
    split_ifs <;> first | omega | (exfalso; linarith)



theorem ulpExponent_mono {a b : ℚ} (ha : 0 < a) (h : a ≤ b) : ulpExponent a ≤ ulpExponent b := by
  unfold ulpExponent
  have h1 := Int.log_mono_right (b := 2) ha h
  have h2 := max_le_max h1 (le_refl (-1022 : ℤ))
  omega

theorem roundMagnitude_zero : roundMagnitude 0 = 0 := by
  unfold roundMagnitude
  rw [zero_div]
  have : roundHalfEven 0 = 0 := by
    have := roundHalfEven_intCast 0
    simpa using this
  rw [this]
  simp

theorem roundMagnitude_nonneg {a : ℚ} (ha : 0 ≤ a) : 0 ≤ roundMagnitude a := by
  unfold roundMagnitude
  have hp : (0 : ℚ) < 2 ^ ulpExponent a := zpow_pos (by norm_num) _
  have h0 : (0 : ℤ) ≤ roundHalfEven (a / 2 ^ ulpExponent a) := by
    have := roundHalfEven_mono (div_nonneg ha (le_of_lt hp))
    have h00 : roundHalfEven 0 = 0 := by
      have := roundHalfEven_intCast 0
      simpa using this
    rw [h00] at this
    exact this
  exact mul_nonneg (by exact_mod_cast h0) (le_of_lt hp)

/-- Upper bound: the rounded magnitude stays within the binade's closing power of two. -/
theorem roundMagnitude_le_pow (a : ℚ) :
    roundMagnitude a ≤ 2 ^ (ulpExponent a + 53) := by
  unfold roundMagnitude
  have hp : (0 : ℚ) < 2 ^ ulpExponent a := zpow_pos (by norm_num) _
  have hlt : a < 2 ^ (ulpExponent a + 53) := by
    have h1 := Int.lt_zpow_succ_log_self (b := 2) (by norm_num) a
    have h2 : Int.log 2 a + 1 ≤ ulpExponent a + 53 := by
      unfold ulpExponent
      have := le_max_left (Int.log 2 a) (-1022)
      omega
    have h3 : ((2 : ℕ) : ℚ) ^ (Int.log 2 a + 1) ≤ 2 ^ (ulpExponent a + 53) := by
      push_cast
      exact zpow_le_zpow_right₀ (by norm_num) h2
    exact lt_of_lt_of_le h1 h3
  have hdiv : a / 2 ^ ulpExponent a ≤ ((2 ^ 53 : ℤ) : ℚ) := by
    rw [div_le_iff₀ hp]
    have : (2 : ℚ) ^ (ulpExponent a + 53) = ((2 ^ 53 : ℤ) : ℚ) * 2 ^ ulpExponent a := by
      rw [zpow_add₀ (by norm_num : (2 : ℚ) ≠ 0)]
      push_cast
      rw [mul_comm]
      norm_num
    rw [← this]
    exact le_of_lt hlt
  have hr := roundHalfEven_mono hdiv
  rw [roundHalfEven_intCast] at hr
  have hr' : (roundHalfEven (a / 2 ^ ulpExponent a) : ℚ) ≤ ((2 ^ 53 : ℤ) : ℚ) := by
    exact_mod_cast hr
  calc (roundHalfEven (a / 2 ^ ulpExponent a) : ℚ) * 2 ^ ulpExponent a
      ≤ ((2 ^ 53 : ℤ) : ℚ) * 2 ^ ulpExponent a := mul_le_mul_of_nonneg_right hr' (le_of_lt hp)
    _ = 2 ^ (ulpExponent a + 53) := by
      rw [zpow_add₀ (by norm_num : (2 : ℚ) ≠ 0)]
      push_cast
      rw [mul_comm]
      norm_num

/-- Lower bound for a magnitude in the normal range. -/
theorem pow_le_roundMagnitude {a : ℚ} (ha : 0 < a) (hn : -1022 ≤ Int.log 2 a) :
    2 ^ (ulpExponent a + 52) ≤ roundMagnitude a := by
  unfold roundMagnitude
  have hp : (0 : ℚ) < 2 ^ ulpExponent a := zpow_pos (by norm_num) _
  have he : ulpExponent a + 52 = Int.log 2 a := by
    unfold ulpExponent
    rw [max_eq_left hn]
    omega
  have hle : (2 : ℚ) ^ (ulpExponent a + 52) ≤ a := by
    rw [he]
    have := Int.zpow_log_le_self (b := 2) (by norm_num) ha
    push_cast at this
    exact this
  have hsplit : (2 : ℚ) ^ (ulpExponent a + 52) = ((2 ^ 52 : ℤ) : ℚ) * 2 ^ ulpExponent a := by
    rw [zpow_add₀ (by norm_num : (2 : ℚ) ≠ 0)]
    push_cast
    rw [mul_comm]
    norm_num
  have hdiv : ((2 ^ 52 : ℤ) : ℚ) ≤ a / 2 ^ ulpExponent a := by
    rw [le_div_iff₀ hp, ← hsplit]
    exact hle
  have hr := roundHalfEven_mono hdiv
  rw [roundHalfEven_intCast] at hr
  have hr' : ((2 ^ 52 : ℤ) : ℚ) ≤ (roundHalfEven (a / 2 ^ ulpExponent a) : ℚ) := by
    exact_mod_cast hr
  rw [hsplit]
  exact mul_le_mul_of_nonneg_right hr' (le_of_lt hp)

theorem roundMagnitude_mono {a b : ℚ} (ha : 0 ≤ a) (h : a ≤ b) :
    roundMagnitude a ≤ roundMagnitude b := by
  rcases eq_or_lt_of_le ha with h0 | hpos
  · rw [← h0, roundMagnitude_zero]
    exact roundMagnitude_nonneg (le_trans ha h)
  · have hb : 0 < b := lt_of_lt_of_le hpos h
    rcases eq_or_lt_of_le (ulpExponent_mono hpos h) with heq | hlt
    · unfold roundMagnitude
      rw [heq]
      have hp : (0 : ℚ) < 2 ^ ulpExponent b := zpow_pos (by norm_num) _
      have hr := roundHalfEven_mono (div_le_div_of_nonneg_right h (le_of_lt hp))
      exact mul_le_mul_of_nonneg_right (by exact_mod_cast hr) (le_of_lt hp)
    · have hn : -1022 ≤ Int.log 2 b := by
        by_contra hc
        have h1 : ulpExponent b = -1074 := by
          unfold ulpExponent
          rw [max_eq_right (by omega)]
          rfl
        have h2 : -1074 ≤ ulpExponent a := by
          unfold ulpExponent
          have := le_max_right (Int.log 2 a) (-1022)
          omega
        omega
      calc roundMagnitude a ≤ 2 ^ (ulpExponent a + 53) := roundMagnitude_le_pow a
        _ ≤ 2 ^ (ulpExponent b + 52) := zpow_le_zpow_right₀ (by norm_num) (by omega)
        _ ≤ roundMagnitude b := pow_le_roundMagnitude hb hn

theorem toDouble_zero : toDouble 0 = 0 := by
  unfold toDouble
  rw [if_neg (lt_irrefl 0), roundMagnitude_zero]

theorem toDouble_mono : Monotone toDouble := by
  intro p q h
  unfold toDouble
  by_cases hp : p < 0
  · by_cases hq : q < 0
    · rw [if_pos hp, if_pos hq]
      exact neg_le_neg (roundMagnitude_mono (by linarith) (by linarith))
    · rw [if_pos hp, if_neg hq]
      have h1 := roundMagnitude_nonneg (a := -p) (by linarith)
      have h2 := roundMagnitude_nonneg (a := q) (by linarith)
      linarith
  · have hq : ¬ q < 0 := by
      intro hc
      exact hp (lt_of_le_of_lt h hc)
    rw [if_neg hp, if_neg hq]
    exact roundMagnitude_mono (not_lt.mp hp) h


theorem ulpExponent_eq {a : ℚ} (k : ℤ) (hk : -1022 ≤ k) (hlo : (2 : ℚ) ^ k ≤ a)
    (hhi : a < (2 : ℚ) ^ (k + 1)) : ulpExponent a = k - 52 := by
  have ha : 0 < a := lt_of_lt_of_le (zpow_pos (by norm_num) _) hlo
  have h1 : k ≤ Int.log 2 a :=
    (Int.zpow_le_iff_le_log (by norm_num) ha).mp (by push_cast; exact hlo)
  have h2 : Int.log 2 a < k + 1 :=
    (Int.lt_zpow_iff_log_lt (by norm_num) ha).mp (by push_cast; exact hhi)
  unfold ulpExponent
  rw [max_eq_left (by omega)]
  omega

theorem roundMagnitude_representable {a : ℚ} (k m : ℤ) (hk : -1022 ≤ k)
    (hlo : (2 : ℚ) ^ k ≤ a) (hhi : a < (2 : ℚ) ^ (k + 1)) (hm : a = m * 2 ^ (k - 52)) :
    roundMagnitude a = a := by
  unfold roundMagnitude
  rw [ulpExponent_eq k hk hlo hhi]
  have hp : (2 : ℚ) ^ (k - 52) ≠ 0 := ne_of_gt (zpow_pos (by norm_num) _)
  have hdiv : a / 2 ^ (k - 52) = (m : ℚ) := by
    rw [hm, mul_div_assoc, div_self hp, mul_one]
  rw [hdiv, roundHalfEven_intCast, ← hm]

theorem roundHalfEven_tie_below (m : ℤ) (hm : m % 2 = 0) : roundHalfEven (m - 1 / 2) = m := by
  have hf : ⌊(m : ℚ) - 1 / 2⌋ = m - 1 := by
    rw [Int.floor_eq_iff]
    push_cast
    constructor <;> linarith
  unfold roundHalfEven
  rw [hf]
  push_cast
  have h1 : ¬ ((m : ℚ) - 1 / 2 - ((m : ℚ) - 1) < 1 / 2) := by
    intro h
    linarith
  have h2 : ¬ ((1 : ℚ) / 2 < (m : ℚ) - 1 / 2 - ((m : ℚ) - 1)) := by
    intro h
    linarith
  rw [if_neg h1, if_neg h2, if_neg (by omega)]
  omega

theorem roundHalfEven_tie_above (m : ℤ) (hm : m % 2 = 0) : roundHalfEven (m + 1 / 2) = m := by
  have hf : ⌊(m : ℚ) + 1 / 2⌋ = m := by
    rw [Int.floor_eq_iff]
    constructor <;> linarith
  unfold roundHalfEven
  rw [hf]
  have h1 : ¬ ((m : ℚ) + 1 / 2 - (m : ℚ) < 1 / 2) := by
    intro h
    linarith
  have h2 : ¬ ((1 : ℚ) / 2 < (m : ℚ) + 1 / 2 - (m : ℚ)) := by
    intro h
    linarith
  rw [if_neg h1, if_neg h2, if_pos hm]

theorem roundMagnitude_tie {a : ℚ} (k m : ℤ) (hk : -1022 ≤ k)
    (hlo : (2 : ℚ) ^ k ≤ a) (hhi : a < (2 : ℚ) ^ (k + 1)) (hm : m % 2 = 0)
    (h : a = (m - 1 / 2) * 2 ^ (k - 52) ∨ a = (m + 1 / 2) * 2 ^ (k - 52)) :
    roundMagnitude a = m * 2 ^ (k - 52) := by
  unfold roundMagnitude
  rw [ulpExponent_eq k hk hlo hhi]
  have hp : (2 : ℚ) ^ (k - 52) ≠ 0 := ne_of_gt (zpow_pos (by norm_num) _)
  rcases h with h | h
  · have hdiv : a / 2 ^ (k - 52) = (m : ℚ) - 1 / 2 := by
      rw [h, mul_div_assoc, div_self hp, mul_one]
    rw [hdiv, roundHalfEven_tie_below m hm]
  · have hdiv : a / 2 ^ (k - 52) = (m : ℚ) + 1 / 2 := by
      rw [h, mul_div_assoc, div_self hp, mul_one]
    rw [hdiv, roundHalfEven_tie_above m hm]

theorem toDouble_of_nonneg {q : ℚ} (h : 0 ≤ q) : toDouble q = roundMagnitude q := by
  unfold toDouble
  rw [if_neg (not_lt.mpr h)]

theorem toDouble_of_neg {q : ℚ} (h : q < 0) : toDouble q = -roundMagnitude (-q) := by
  unfold toDouble
  rw [if_pos h]

theorem isRounding_toDouble : IsRounding toDouble :=
  ⟨toDouble_mono, toDouble_zero⟩

theorem isRounding_id : IsRounding id :=
  ⟨monotone_id, rfl⟩

/-! ## Facts about the stages of `updateWith` -/

theorem updateWith_id (W H delta : ℚ) (g : Game) : updateWith id W H g delta = update W H g delta :=
  rfl

theorem hitRightWallWith_position (rnd : ℚ → ℚ) (width : ℚ) (b : Ball) :
    (hitRightWallWith rnd width b).position = b.position := by
  unfold hitRightWallWith; split <;> rfl

theorem hitRightWallWith_size (rnd : ℚ → ℚ) (width : ℚ) (b : Ball) :
    (hitRightWallWith rnd width b).size = b.size := by
  unfold hitRightWallWith; split <;> rfl

theorem hitRightWallWith_vy (rnd : ℚ → ℚ) (width : ℚ) (b : Ball) :
    (hitRightWallWith rnd width b).velocity.y = b.velocity.y := by
  unfold hitRightWallWith; split <;> rfl

theorem hitRightWallWith_vx (rnd : ℚ → ℚ) (width : ℚ) (b : Ball) :
    (hitRightWallWith rnd width b).velocity.x =
      if rnd (b.position.x + b.size) > width then -|b.velocity.x| else b.velocity.x := by
  unfold hitRightWallWith; split <;> rfl

theorem wallCollisionsWith_position (rnd : ℚ → ℚ) (width : ℚ) (b : Ball) :
    (wallCollisionsWith rnd width b).position = b.position := by
  unfold wallCollisionsWith
  rw [hitTopWall_position, hitRightWallWith_position, hitLeftWall_position]

theorem wallCollisionsWith_size (rnd : ℚ → ℚ) (width : ℚ) (b : Ball) :
    (wallCollisionsWith rnd width b).size = b.size := by
  unfold wallCollisionsWith
  rw [hitTopWall_size, hitRightWallWith_size, hitLeftWall_size]

theorem wallCollisionsWith_vy (rnd : ℚ → ℚ) (width : ℚ) (b : Ball) :
    (wallCollisionsWith rnd width b).velocity.y =
      if b.position.y < 0 then |b.velocity.y| else b.velocity.y := by
  unfold wallCollisionsWith
  rw [hitTopWall_vy, hitRightWallWith_position, hitLeftWall_position, hitRightWallWith_vy,
    hitLeftWall_vy]

theorem wallCollisionsWith_vx (rnd : ℚ → ℚ) (width : ℚ) (b : Ball) :
    (wallCollisionsWith rnd width b).velocity.x =
      if rnd (b.position.x + b.size) > width then -|b.velocity.x|
      else if b.position.x < 0 then |b.velocity.x| else b.velocity.x := by
  unfold wallCollisionsWith
  rw [hitTopWall_vx, hitRightWallWith_vx, hitLeftWall_position, hitLeftWall_size,
    hitLeftWall_vx]
  by_cases h : b.position.x < 0 <;> simp [h]

theorem batCollisionWith_position (rnd : ℚ → ℚ) (height : ℚ) (b : Ball) (bat : Bat) (r : Bool) :
    (batCollisionWith rnd height b bat r).1.position = b.position := by
  unfold batCollisionWith; split_ifs <;> rfl

theorem batCollisionWith_size (rnd : ℚ → ℚ) (height : ℚ) (b : Ball) (bat : Bat) (r : Bool) :
    (batCollisionWith rnd height b bat r).1.size = b.size := by
  unfold batCollisionWith; split_ifs <;> rfl

theorem batCollisionWith_vx (rnd : ℚ → ℚ) (height : ℚ) (b : Ball) (bat : Bat) (r : Bool) :
    (batCollisionWith rnd height b bat r).1.velocity.x = b.velocity.x := by
  unfold batCollisionWith; split_ifs <;> rfl

theorem batCollisionWith_vy (rnd : ℚ → ℚ) (height : ℚ) (b : Ball) (bat : Bat) (r : Bool) :
    (batCollisionWith rnd height b bat r).1.velocity.y =
      if inBatRegionWith rnd height b ∧ overlapsBatWith rnd b bat then -|b.velocity.y|
      else b.velocity.y := by
  unfold batCollisionWith; split_ifs <;> simp_all

theorem batCollisionWith_running (rnd : ℚ → ℚ) (height : ℚ) (b : Ball) (bat : Bat) (r : Bool) :
    (batCollisionWith rnd height b bat r).2 =
      if inBatRegionWith rnd height b ∧ ¬ overlapsBatWith rnd b bat then false else r := by
  unfold batCollisionWith; split_ifs <;> simp_all

theorem updateWith_x (rnd : ℚ → ℚ) (W H delta : ℚ) (g : Game) :
    (updateWith rnd W H g delta).entities.ball.position.x =
      rnd (g.entities.ball.position.x + rnd (g.entities.ball.velocity.x * delta)) := by
  unfold updateWith
  simp only []
  rw [batCollisionWith_position, wallCollisionsWith_position]
  rfl

theorem updateWith_y (rnd : ℚ → ℚ) (W H delta : ℚ) (g : Game) :
    (updateWith rnd W H g delta).entities.ball.position.y =
      rnd (g.entities.ball.position.y + rnd (g.entities.ball.velocity.y * delta)) := by
  unfold updateWith
  simp only []
  rw [batCollisionWith_position, wallCollisionsWith_position]
  rfl

theorem updateWith_size (rnd : ℚ → ℚ) (W H delta : ℚ) (g : Game) :
    (updateWith rnd W H g delta).entities.ball.size = g.entities.ball.size := by
  unfold updateWith
  simp only []
  rw [batCollisionWith_size, wallCollisionsWith_size]
  rfl

theorem updateWith_vx (rnd : ℚ → ℚ) (W H delta : ℚ) (g : Game) :
    (updateWith rnd W H g delta).entities.ball.velocity.x =
      if rnd (rnd (g.entities.ball.position.x + rnd (g.entities.ball.velocity.x * delta)) +
          g.entities.ball.size) > W then
        -|g.entities.ball.velocity.x|
      else if rnd (g.entities.ball.position.x + rnd (g.entities.ball.velocity.x * delta)) < 0 then
        |g.entities.ball.velocity.x|
      else g.entities.ball.velocity.x := by
  unfold updateWith
  simp only []
  rw [batCollisionWith_vx, wallCollisionsWith_vx]
  rfl

theorem updateWith_vy (rnd : ℚ → ℚ) (W H delta : ℚ) (g : Game) :
    (updateWith rnd W H g delta).entities.ball.velocity.y =
      if inBatRegionWith rnd H (wallCollisionsWith rnd W (moveBallWith rnd g.entities.ball delta)) ∧
          overlapsBatWith rnd (wallCollisionsWith rnd W (moveBallWith rnd g.entities.ball delta))
            g.entities.bat then
        -|(wallCollisionsWith rnd W (moveBallWith rnd g.entities.ball delta)).velocity.y|
      else (wallCollisionsWith rnd W (moveBallWith rnd g.entities.ball delta)).velocity.y := by
  unfold updateWith
  simp only []
  rw [batCollisionWith_vy]

theorem updateWith_running (rnd : ℚ → ℚ) (W H delta : ℚ) (g : Game) :
    (updateWith rnd W H g delta).running =
      if inBatRegionWith rnd H (wallCollisionsWith rnd W (moveBallWith rnd g.entities.ball delta)) ∧
          ¬ overlapsBatWith rnd (wallCollisionsWith rnd W (moveBallWith rnd g.entities.ball delta))
            g.entities.bat then
        false
      else g.running := by
  unfold updateWith
  simp only []
  rw [batCollisionWith_running]

/-! ## The tilt mapping -/

/-- C1 (paddle-position bound): when the arena is at least as wide as the bat, a sample
with any tilt angle `gamma`, in range or not, writes the bat position
`((clamp(gamma, -0.5, 0.5) + 0.5) / (2 * 0.5)) * (W - batWidth)`, and that value lies
between `0` and `W - batWidth`. -/
theorem paddle_position_bound (W gamma : ℚ) (g : Game) (hW : g.entities.bat.size ≤ W) :
    (onDeviceMotion W (tilt gamma) g).entities.bat.position.x =
        ((max (-(1 / 2)) (min (1 / 2) gamma) + 1 / 2) / (2 * (1 / 2))) *
          (W - g.entities.bat.size) ∧
      0 ≤ (onDeviceMotion W (tilt gamma) g).entities.bat.position.x ∧
      (onDeviceMotion W (tilt gamma) g).entities.bat.position.x ≤ W - g.entities.bat.size := by
  rw [onDeviceMotion_x]
  have h0 := normalized_nonneg gamma
  have h1 := normalized_le_one gamma
  have hw : 0 ≤ W - g.entities.bat.size := by linarith
  refine ⟨rfl, ?_, ?_⟩
  · exact mul_nonneg h0 hw
  · calc newBatX W g.entities.bat.size gamma
        = normalized gamma * (W - g.entities.bat.size) := rfl
      _ ≤ 1 * (W - g.entities.bat.size) := mul_le_mul_of_nonneg_right h1 hw
      _ = W - g.entities.bat.size := one_mul _

/-- Witness for C1: a tilt of 3 radians, far beyond `maxTilt`, in a window 400 wide with
the bat of the source (width 100) puts the bat within `[0, 300]`. -/
theorem paddle_position_bound_witness :
    (initialGame 400 800).entities.bat.size = 100 ∧
      0 ≤ (onDeviceMotion 400 (tilt 3) (initialGame 400 800)).entities.bat.position.x ∧
      (onDeviceMotion 400 (tilt 3) (initialGame 400 800)).entities.bat.position.x ≤
        400 - (initialGame 400 800).entities.bat.size :=
  ⟨rfl, (paddle_position_bound 400 3 (initialGame 400 800) (by norm_num [initialGame])).2⟩

/-- C7 (normalization monotonicity): when the arena is at least as wide as the bat, a
smaller tilt angle never gives a larger bat position. -/
theorem normalization_monotone (W gamma1 gamma2 : ℚ) (g : Game)
    (hW : g.entities.bat.size ≤ W) (h : gamma1 < gamma2) :
    (onDeviceMotion W (tilt gamma1) g).entities.bat.position.x ≤
      (onDeviceMotion W (tilt gamma2) g).entities.bat.position.x := by
  rw [onDeviceMotion_x, onDeviceMotion_x]
  exact mul_le_mul_of_nonneg_right (normalized_mono (le_of_lt h)) (by linarith)

/-- Witness for C7: the tilts `-1/10 < 1/5` in a window 400 wide. -/
theorem normalization_monotone_witness :
    (onDeviceMotion 400 (tilt (-1 / 10)) (initialGame 400 800)).entities.bat.position.x ≤
      (onDeviceMotion 400 (tilt (1 / 5)) (initialGame 400 800)).entities.bat.position.x :=
  normalization_monotone 400 (-1 / 10) (1 / 5) (initialGame 400 800)
    (by norm_num [initialGame]) (by norm_num)

/-- C8 (anchor values of the tilt mapping): for every arena width, `gamma = 0.5` puts
the bat at `W - batWidth`, `gamma = -0.5` at `0` and `gamma = 0` at `(W - batWidth) / 2`;
every `gamma ≥ 0.5` gives the same position as `0.5` and every `gamma ≤ -0.5` the same
as `-0.5`. -/
theorem tilt_anchor_values (W gamma : ℚ) (g : Game) :
    (onDeviceMotion W (tilt (1 / 2)) g).entities.bat.position.x = W - g.entities.bat.size ∧
      (onDeviceMotion W (tilt (-(1 / 2))) g).entities.bat.position.x = 0 ∧
      (onDeviceMotion W (tilt 0) g).entities.bat.position.x = (W - g.entities.bat.size) / 2 ∧
      (1 / 2 ≤ gamma →
        (onDeviceMotion W (tilt gamma) g).entities.bat.position.x =
          (onDeviceMotion W (tilt (1 / 2)) g).entities.bat.position.x) ∧
      (gamma ≤ -(1 / 2) →
        (onDeviceMotion W (tilt gamma) g).entities.bat.position.x =
          (onDeviceMotion W (tilt (-(1 / 2))) g).entities.bat.position.x) := by
  simp only [onDeviceMotion_x, newBatX, normalized_eq, clampedGamma, maxTilt]
  refine ⟨?_, ?_, ?_, ?_, ?_⟩
  · norm_num
  · norm_num
  · norm_num
    ring
  · intro h
    rw [min_eq_left h]
    norm_num
  · intro h
    have h2 : min (1 / 2) gamma = gamma := min_eq_right (by linarith)
    rw [h2, max_eq_left h]
    norm_num

/-- Witness for C8: in a window 400 wide the tilt 2 saturates at the right end, 300,
and the tilt -2 at the left end, 0. -/
theorem tilt_anchor_values_witness :
    (onDeviceMotion 400 (tilt 2) (initialGame 400 800)).entities.bat.position.x =
        (onDeviceMotion 400 (tilt (1 / 2)) (initialGame 400 800)).entities.bat.position.x ∧
      (onDeviceMotion 400 (tilt (-2)) (initialGame 400 800)).entities.bat.position.x =
        (onDeviceMotion 400 (tilt (-(1 / 2))) (initialGame 400 800)).entities.bat.position.x :=
  ⟨(tilt_anchor_values 400 2 (initialGame 400 800)).2.2.2.1 (by norm_num),
    (tilt_anchor_values 400 (-2) (initialGame 400 800)).2.2.2.2 (by norm_num)⟩


/-! ## The frame tick -/

/-- C2, as stated, fails: `update` does not look at `running`.  Called on a stopped
game with the ball about to land on the bat, it still moves the ball, from `(234, 714)`
to `(250, 730)`, and still turns its vertical velocity, from `1` to `-1`. -/
theorem terminal_idempotence_counterexample :
    (stoppedAt 234 714 1 1).running = false ∧
      (update 400 800 (stoppedAt 234 714 1 1) 16).entities.ball.position ≠
        (stoppedAt 234 714 1 1).entities.ball.position ∧
      (update 400 800 (stoppedAt 234 714 1 1) 16).entities.ball.velocity ≠
        (stoppedAt 234 714 1 1).entities.ball.velocity := by
  refine ⟨rfl, ?_, ?_⟩
  · rw [update_ball, batCollision_position, wallCollisions_position]
    norm_num [stoppedAt, sceneAt, moveBall]
  · have hreg : inBatRegion 800
        (wallCollisions 400 (moveBall (stoppedAt 234 714 1 1).entities.ball 16)) := by
      unfold inBatRegion
      rw [wallCollisions_vy, wallCollisions_position, wallCollisions_size]
      norm_num [stoppedAt, sceneAt, moveBall]
    have hov : overlapsBat (wallCollisions 400 (moveBall (stoppedAt 234 714 1 1).entities.ball 16))
        (stoppedAt 234 714 1 1).entities.bat := by
      rw [overlapsBat_wallCollisions]
      unfold overlapsBat
      norm_num [stoppedAt, sceneAt, moveBall]
    have hvy : (update 400 800 (stoppedAt 234 714 1 1) 16).entities.ball.velocity.y = -1 := by
      rw [update_vy, if_pos ⟨hreg, hov⟩, wallCollisions_vy]
      norm_num [stoppedAt, sceneAt, moveBall]
    intro h
    have hy := congrArg Vec.y h
    rw [hvy] at hy
    norm_num [stoppedAt, sceneAt] at hy

/-- C2, amended: once `running` is false, a further call of `update` keeps `running`
false and leaves the bat and the ball's size exactly as they were, but it still moves
the ball to `(x + vx * delta, y + vy * delta)` and still applies the wall and bat
reflections to its velocity. -/
theorem terminal_idempotence (W H delta : ℚ) (g : Game) (hstop : g.running = false) :
    (update W H g delta).running = false ∧
      (update W H g delta).entities.bat = g.entities.bat ∧
      (update W H g delta).entities.ball.size = g.entities.ball.size ∧
      (update W H g delta).entities.ball.position =
        { x := g.entities.ball.position.x + g.entities.ball.velocity.x * delta
          y := g.entities.ball.position.y + g.entities.ball.velocity.y * delta } ∧
      (update W H g delta).entities.ball.velocity.x =
        (if g.entities.ball.position.x + g.entities.ball.velocity.x * delta +
            g.entities.ball.size > W then
          -|g.entities.ball.velocity.x|
        else if g.entities.ball.position.x + g.entities.ball.velocity.x * delta < 0 then
          |g.entities.ball.velocity.x|
        else g.entities.ball.velocity.x) ∧
      (update W H g delta).entities.ball.velocity.y =
        (if inBatRegion H (wallCollisions W (moveBall g.entities.ball delta)) ∧
            overlapsBat (wallCollisions W (moveBall g.entities.ball delta)) g.entities.bat then
          -|g.entities.ball.velocity.y|
        else if g.entities.ball.position.y + g.entities.ball.velocity.y * delta < 0 then
          |g.entities.ball.velocity.y|
        else g.entities.ball.velocity.y) := by
  refine ⟨update_running_of_stopped W H g delta hstop, rfl, update_size W H delta g, ?_, ?_, ?_⟩
  · rw [update_ball, batCollision_position, wallCollisions_position]
    rfl
  · have h := update_vx W H delta g
    rw [moveBall_x] at h
    exact h
  · rw [update_vy, wallCollisions_vy, moveBall_velocity, moveBall_y]
    by_cases hy : g.entities.ball.position.y + g.entities.ball.velocity.y * delta < 0
    · simp only [if_pos hy, abs_abs]
    · simp only [if_neg hy]

/-- Witness for C2 (amended): on the stopped game with the ball at `(234, 714)` and
velocity `(1, 1)`, a call of `update` with `delta = 16` leaves `running` false and the
bat in place, and puts the ball at `(250, 730)`. -/
theorem terminal_idempotence_witness :
    (update 400 800 (stoppedAt 234 714 1 1) 16).running = false ∧
      (update 400 800 (stoppedAt 234 714 1 1) 16).entities.bat =
        (stoppedAt 234 714 1 1).entities.bat ∧
      (update 400 800 (stoppedAt 234 714 1 1) 16).entities.ball.position =
        { x := 250, y := 730 } := by
  have h := terminal_idempotence 400 800 16 (stoppedAt 234 714 1 1) rfl
  refine ⟨h.1, h.2.1, ?_⟩
  rw [h.2.2.2.1]
  norm_num [stoppedAt, sceneAt]

/-- C3, as stated, fails in two ways.  A ball without horizontal speed left of the wall
keeps `vx = 0`; and a ball wider than the arena that is left of the wall also sticks out
on the right, where the later right-wall check makes `vx` negative. -/
theorem left_wall_reflection_counterexample :
    ((moveBall (sceneAt (-5) 300 0 1).entities.ball 16).position.x < 0 ∧
        ¬ (update 400 800 (sceneAt (-5) 300 0 1) 16).entities.ball.velocity.x > 0) ∧
      ((moveBall (sceneAt (-5) 300 (-1) 1).entities.ball 16).position.x < 0 ∧
        ¬ (update 20 800 (sceneAt (-5) 300 (-1) 1) 16).entities.ball.velocity.x > 0) := by
  refine ⟨⟨?_, ?_⟩, ?_, ?_⟩
  · norm_num [sceneAt, moveBall]
  · rw [update_ball, batCollision_vx, wallCollisions_vx]
    norm_num [sceneAt, moveBall]
  · norm_num [sceneAt, moveBall]
  · rw [update_ball, batCollision_vx, wallCollisions_vx]
    norm_num [sceneAt, moveBall]

/-- C3, amended: if after integration the ball is left of the wall (`x' < 0`) without
also sticking out on the right (`x' + size ≤ W`, which is so whenever `size ≤ W`), and
its horizontal speed is not zero, then after the tick `vx' = |vx| > 0`. -/
theorem left_wall_reflection (W H delta : ℚ) (g : Game)
    (hleft : (moveBall g.entities.ball delta).position.x < 0)
    (hright : (moveBall g.entities.ball delta).position.x + g.entities.ball.size ≤ W)
    (hv : g.entities.ball.velocity.x ≠ 0) :
    (update W H g delta).entities.ball.velocity.x = |g.entities.ball.velocity.x| ∧
      (update W H g delta).entities.ball.velocity.x > 0 := by
  have hvx : (update W H g delta).entities.ball.velocity.x = |g.entities.ball.velocity.x| := by
    rw [update_ball, batCollision_vx, wallCollisions_vx, moveBall_size, moveBall_velocity,
      if_neg (not_lt.mpr hright), if_pos hleft]
  exact ⟨hvx, by rw [hvx]; exact abs_pos.mpr hv⟩

/-- Witness for C3 (amended), scenario 2 of the specification: the ball reaches
`x = -5` with `vx = -1` and leaves the tick with `vx = 1`. -/
theorem left_wall_reflection_witness :
    (moveBall (sceneAt 11 300 (-1) 1).entities.ball 16).position.x = -5 ∧
      (update 400 800 (sceneAt 11 300 (-1) 1) 16).entities.ball.velocity.x = 1 := by
  refine ⟨by norm_num [sceneAt, moveBall], ?_⟩
  have h := (left_wall_reflection 400 800 16 (sceneAt 11 300 (-1) 1)
    (by norm_num [sceneAt, moveBall]) (by norm_num [sceneAt, moveBall])
    (by norm_num [sceneAt])).1
  rw [h]
  norm_num [sceneAt]

/-- C4, as stated, fails in two ways.  A ball without vertical speed above the top wall
keeps `vy = 0`; and a ball so tall that, while above the top wall, its lower edge is on
the line of the bat is sent upwards again by the bat in the same tick. -/
theorem top_wall_reflection_counterexample :
    ((moveBall (sceneAt 175 (-5) 1 0).entities.ball 16).position.y < 0 ∧
        ¬ (update 400 800 (sceneAt 175 (-5) 1 0) 16).entities.ball.velocity.y > 0) ∧
      ((moveBall (sceneAt 175 11 1 (-1)).entities.ball 16).position.y < 0 ∧
        ¬ (update 400 60 (sceneAt 175 11 1 (-1)) 16).entities.ball.velocity.y > 0) := by
  refine ⟨⟨?_, ?_⟩, ?_, ?_⟩
  · norm_num [sceneAt, moveBall]
  · rw [update_ball, batCollision_vy, wallCollisions_vy]
    norm_num [sceneAt, moveBall, inBatRegion, wallCollisions_vy]
  · norm_num [sceneAt, moveBall]
  · rw [update_ball, batCollision_vy, wallCollisions_vy]
    norm_num [sceneAt, moveBall, inBatRegion, overlapsBat, wallCollisions_vy,
      wallCollisions_position, wallCollisions_size]

/-- C4, amended: if after integration the ball is above the top wall (`y' < 0`), its
vertical speed is not zero, and the ball is not caught by the bat in the same tick (its
lower edge on or below the line of the bat, `y' + size ≥ H - 20`, while it overlaps the
bat horizontally; this cannot happen when `size ≤ H - 20`), then after the tick
`vy' = |vy| > 0`. -/
theorem top_wall_reflection (W H delta : ℚ) (g : Game)
    (htop : (moveBall g.entities.ball delta).position.y < 0)
    (hbat : ¬ ((moveBall g.entities.ball delta).position.y + g.entities.ball.size ≥ H - 20 ∧
      overlapsBat (moveBall g.entities.ball delta) g.entities.bat))
    (hv : g.entities.ball.velocity.y ≠ 0) :
    (update W H g delta).entities.ball.velocity.y = |g.entities.ball.velocity.y| ∧
      (update W H g delta).entities.ball.velocity.y > 0 := by
  have hreg : ¬ (inBatRegion H (wallCollisions W (moveBall g.entities.ball delta)) ∧
      overlapsBat (wallCollisions W (moveBall g.entities.ball delta)) g.entities.bat) := by
    rw [overlapsBat_wallCollisions]
    unfold inBatRegion
    rw [wallCollisions_position, wallCollisions_size, moveBall_size]
    intro h
    exact hbat ⟨h.1.2, h.2⟩
  have hvy : (update W H g delta).entities.ball.velocity.y = |g.entities.ball.velocity.y| := by
    rw [update_ball, batCollision_vy, if_neg hreg, wallCollisions_vy,
      if_pos htop, moveBall_velocity]
  exact ⟨hvy, by rw [hvy]; exact abs_pos.mpr hv⟩

/-- Witness for C4 (amended): the ball reaches `y = -5` with `vy = -1` and leaves the
tick with `vy = 1`. -/
theorem top_wall_reflection_witness :
    (moveBall (sceneAt 175 11 1 (-1)).entities.ball 16).position.y = -5 ∧
      (update 400 800 (sceneAt 175 11 1 (-1)) 16).entities.ball.velocity.y = 1 := by
  refine ⟨by norm_num [sceneAt, moveBall], ?_⟩
  have h := (top_wall_reflection 400 800 16 (sceneAt 175 11 1 (-1))
    (by norm_num [sceneAt, moveBall]) (by norm_num [sceneAt, moveBall])
    (by norm_num [sceneAt])).1
  rw [h]
  norm_num [sceneAt]


/-! ## The bat -/

/-- C5 (game-over condition): a tick on a running game sets `running` to false exactly
when, after integration and wall reflection, the ball moves down (`vy > 0`), its lower
edge has reached the line of the bat (`y + size ≥ H - 20`) and it does not overlap the
bat horizontally (`ball.x + size < bat.x` or `ball.x > bat.x + bat.size`); in every
other case `running` is left as it was. -/
theorem game_over_condition (W H delta : ℚ) (g : Game) (hrun : g.running = true) :
    ((update W H g delta).running = false ↔
        (wallCollisions W (moveBall g.entities.ball delta)).velocity.y > 0 ∧
          (wallCollisions W (moveBall g.entities.ball delta)).position.y +
              (wallCollisions W (moveBall g.entities.ball delta)).size ≥ H - 20 ∧
          ((wallCollisions W (moveBall g.entities.ball delta)).position.x +
                (wallCollisions W (moveBall g.entities.ball delta)).size <
              g.entities.bat.position.x ∨
            (wallCollisions W (moveBall g.entities.ball delta)).position.x >
              g.entities.bat.position.x + g.entities.bat.size)) ∧
      (¬ ((wallCollisions W (moveBall g.entities.ball delta)).velocity.y > 0 ∧
          (wallCollisions W (moveBall g.entities.ball delta)).position.y +
              (wallCollisions W (moveBall g.entities.ball delta)).size ≥ H - 20 ∧
          ((wallCollisions W (moveBall g.entities.ball delta)).position.x +
                (wallCollisions W (moveBall g.entities.ball delta)).size <
              g.entities.bat.position.x ∨
            (wallCollisions W (moveBall g.entities.ball delta)).position.x >
              g.entities.bat.position.x + g.entities.bat.size)) →
        (update W H g delta).running = g.running) := by
  have key : (inBatRegion H (wallCollisions W (moveBall g.entities.ball delta)) ∧
      ¬ overlapsBat (wallCollisions W (moveBall g.entities.ball delta)) g.entities.bat) ↔
      ((wallCollisions W (moveBall g.entities.ball delta)).velocity.y > 0 ∧
          (wallCollisions W (moveBall g.entities.ball delta)).position.y +
              (wallCollisions W (moveBall g.entities.ball delta)).size ≥ H - 20 ∧
          ((wallCollisions W (moveBall g.entities.ball delta)).position.x +
                (wallCollisions W (moveBall g.entities.ball delta)).size <
              g.entities.bat.position.x ∨
            (wallCollisions W (moveBall g.entities.ball delta)).position.x >
              g.entities.bat.position.x + g.entities.bat.size)) := by
    unfold inBatRegion overlapsBat
    rw [not_and_or, not_le, not_le, and_assoc]
  rw [← key, update_running, batCollision_running, hrun]
  constructor
  · by_cases h : inBatRegion H (wallCollisions W (moveBall g.entities.ball delta)) ∧
        ¬ overlapsBat (wallCollisions W (moveBall g.entities.ball delta)) g.entities.bat
    · simp [h]
    · simp [h]
  · intro h
    rw [if_neg h]

/-- Witness for C5, scenario 4 of the specification: the bat covers `[150, 250]`, the
ball arrives at `x = 260` with its lower edge on the line of the bat, and the game
stops. -/
theorem game_over_condition_witness :
    (moveBall (sceneAt 244 714 1 1).entities.ball 16).position = ⟨260, 730⟩ ∧
      (update 400 800 (sceneAt 244 714 1 1) 16).running = false :=
  ⟨by norm_num [sceneAt, moveBall],
    (game_over_condition 400 800 16 (sceneAt 244 714 1 1) rfl).1.mpr
      (by
        rw [wallCollisions_vy, wallCollisions_position, wallCollisions_size]
        norm_num [sceneAt, moveBall])⟩

/-- C6 (bat bounce): whenever, after integration and wall reflection, the ball moves
down, its lower edge has reached the line of the bat and it overlaps the bat
horizontally (touching edges included), the tick leaves `vy' = -|vy|`, which is
strictly negative and of the same magnitude as before the tick, and `running` stays as
it was. -/
theorem paddle_bounce (W H delta : ℚ) (g : Game)
    (hdown : (wallCollisions W (moveBall g.entities.ball delta)).velocity.y > 0)
    (hline : (wallCollisions W (moveBall g.entities.ball delta)).position.y +
      (wallCollisions W (moveBall g.entities.ball delta)).size ≥ H - 20)
    (hl : (wallCollisions W (moveBall g.entities.ball delta)).position.x +
      (wallCollisions W (moveBall g.entities.ball delta)).size ≥ g.entities.bat.position.x)
    (hr : (wallCollisions W (moveBall g.entities.ball delta)).position.x ≤
      g.entities.bat.position.x + g.entities.bat.size) :
    (update W H g delta).entities.ball.velocity.y = -|g.entities.ball.velocity.y| ∧
      (update W H g delta).entities.ball.velocity.y < 0 ∧
      |(update W H g delta).entities.ball.velocity.y| = |g.entities.ball.velocity.y| ∧
      (update W H g delta).running = g.running ∧
      (g.running = true → (update W H g delta).running = true) := by
  have hreg : inBatRegion H (wallCollisions W (moveBall g.entities.ball delta)) := ⟨hdown, hline⟩
  have hov : overlapsBat (wallCollisions W (moveBall g.entities.ball delta)) g.entities.bat :=
    ⟨hl, hr⟩
  have habs : |(wallCollisions W (moveBall g.entities.ball delta)).velocity.y| =
      |g.entities.ball.velocity.y| := by
    rw [wallCollisions_vy, moveBall_velocity]
    split_ifs
    · exact abs_abs _
    · rfl
  have hvy : (update W H g delta).entities.ball.velocity.y = -|g.entities.ball.velocity.y| := by
    rw [update_ball, batCollision_vy, if_pos ⟨hreg, hov⟩, habs]
  have hpos : 0 < |g.entities.ball.velocity.y| := by
    rw [← habs]
    exact abs_pos.mpr (ne_of_gt hdown)
  have hrun : (update W H g delta).running = g.running := by
    rw [update_running, batCollision_running, if_neg (fun h => h.2 hov)]
  refine ⟨hvy, ?_, ?_, hrun, fun h => hrun.trans h⟩
  · rw [hvy]
    linarith
  · rw [hvy, abs_neg, abs_abs]

/-- Witness for C6, scenario 3 of the specification: the bat covers `[150, 250]`, the
ball arrives at `x = 250`, touching the right end of the bat, with its lower edge on the
line of the bat; it leaves with `vy = -1` and the game goes on. -/
theorem paddle_bounce_witness :
    (moveBall (sceneAt 234 714 1 1).entities.ball 16).position = ⟨250, 730⟩ ∧
      (update 400 800 (sceneAt 234 714 1 1) 16).entities.ball.velocity.y = -1 ∧
      (update 400 800 (sceneAt 234 714 1 1) 16).running = true := by
  have h := paddle_bounce 400 800 16 (sceneAt 234 714 1 1)
    (by rw [wallCollisions_vy]; norm_num [sceneAt, moveBall])
    (by rw [wallCollisions_position, wallCollisions_size]; norm_num [sceneAt, moveBall])
    (by rw [wallCollisions_position, wallCollisions_size]; norm_num [sceneAt, moveBall])
    (by rw [wallCollisions_position]; norm_num [sceneAt, moveBall])
  refine ⟨by norm_num [sceneAt, moveBall], ?_, h.2.2.2.2 rfl⟩
  rw [h.1]
  norm_num [sceneAt]


/-! ## Free flight and the run state -/

/-- C9 (contact-free tick): if after integration the ball is inside the side walls
(`0 ≤ x'` and `x' + size ≤ W`), below the top wall (`0 ≤ y'`) and outside the bat
region (not both `vy > 0` and `y' + size ≥ H - 20`), then the tick changes only the
position of the ball, to `(x + vx * delta, y + vy * delta)`; the velocity, the bat and
`running` are as before. -/
theorem contact_free_tick (W H delta : ℚ) (g : Game)
    (hx0 : 0 ≤ (moveBall g.entities.ball delta).position.x)
    (hxW : (moveBall g.entities.ball delta).position.x + g.entities.ball.size ≤ W)
    (hy0 : 0 ≤ (moveBall g.entities.ball delta).position.y)
    (hzone : ¬ (g.entities.ball.velocity.y > 0 ∧
      (moveBall g.entities.ball delta).position.y + g.entities.ball.size ≥ H - 20)) :
    update W H g delta =
      { g with
        entities :=
          { g.entities with
            ball :=
              { g.entities.ball with
                position :=
                  { x := g.entities.ball.position.x + g.entities.ball.velocity.x * delta
                    y := g.entities.ball.position.y + g.entities.ball.velocity.y * delta } } } } := by
  have hl : hitLeftWall (moveBall g.entities.ball delta) = moveBall g.entities.ball delta := by
    unfold hitLeftWall
    rw [if_neg (not_lt.mpr hx0)]
  have hr : hitRightWall W (moveBall g.entities.ball delta) = moveBall g.entities.ball delta := by
    unfold hitRightWall
    exact if_neg (not_lt.mpr hxW)
  have ht : hitTopWall (moveBall g.entities.ball delta) = moveBall g.entities.ball delta := by
    unfold hitTopWall
    rw [if_neg (not_lt.mpr hy0)]
  have hw : wallCollisions W (moveBall g.entities.ball delta) = moveBall g.entities.ball delta := by
    unfold wallCollisions
    rw [hl, hr, ht]
  have hb : batCollision H (moveBall g.entities.ball delta) g.entities.bat g.running =
      (moveBall g.entities.ball delta, g.running) := by
    unfold batCollision
    exact if_neg hzone
  unfold update
  simp only [hw, hb]
  rfl

/-- Witness for C9, scenario 1 of the specification: ball at `(175, 300)` with velocity
`(1, 1)`, `delta = 16`, window `400 × 800`; the ball moves to `(191, 316)` and nothing
else changes. -/
theorem contact_free_tick_witness :
    update 400 800 (sceneAt 175 300 1 1) 16 = sceneAt 191 316 1 1 := by
  have h := contact_free_tick 400 800 16 (sceneAt 175 300 1 1)
    (by norm_num [sceneAt, moveBall]) (by norm_num [sceneAt, moveBall])
    (by norm_num [sceneAt, moveBall]) (by norm_num [sceneAt, moveBall])
  rw [h]
  norm_num [sceneAt]

/-- C10 (`running` is terminal): from a state in which `running` is false, neither a
call of `update`, nor a frame of the engine, nor a sensor sample, nor any sequence of
such events gives a state in which `running` is true; in particular, if the state
reached from the initial state by some events has `running` false, so has every state
reached by further events. -/
theorem running_terminal (W H : ℚ) (g : Game) (hstop : g.running = false) :
    (∀ delta, (update W H g delta).running = false) ∧
      (∀ delta, (frameTick W H g delta).running = false) ∧
      (∀ data, (onDeviceMotion W data g).running = false) ∧
      (∀ events, (run W H g events).running = false) ∧
      (∀ earlier later, g = run W H (initialGame W H) earlier →
        (run W H (initialGame W H) (earlier ++ later)).running = false) := by
  refine ⟨fun delta => update_running_of_stopped W H g delta hstop,
    fun delta => step_running_of_stopped W H g (.tick delta) hstop,
    fun data => step_running_of_stopped W H g (.sample data) hstop,
    fun events => run_running_of_stopped W H events g hstop, ?_⟩
  intro earlier later hg
  rw [run_append, ← hg]
  exact run_running_of_stopped W H later g hstop

/-- Witness for C10: in a window `400 × 800` a first tick of 330 time units carries the
ball past the bat and stops the game; a later sample and a later tick leave `running`
false. -/
theorem running_terminal_witness :
    (run 400 800 (initialGame 400 800) [Event.tick 330]).running = false ∧
      (run 400 800 (initialGame 400 800)
        ([Event.tick 330] ++ [Event.sample (tilt 0), Event.tick 16])).running = false := by
  have hstop : (run 400 800 (initialGame 400 800) [Event.tick 330]).running = false := by
    simp only [run, List.foldl, step, frameTick, initialGame, if_true, update_running,
      batCollision_running]
    rw [if_pos]
    unfold inBatRegion overlapsBat
    rw [wallCollisions_vy, wallCollisions_position, wallCollisions_size]
    norm_num [moveBall]
  exact ⟨hstop,
    (running_terminal 400 800 (run 400 800 (initialGame 400 800) [Event.tick 330]) hstop).2.2.2.2
      [Event.tick 330] [Event.sample (tilt 0), Event.tick 16] rfl⟩

/-! ## Missing tilt data -/

theorem newBatXRaw_some (width batSize gamma : ℚ) :
    newBatXRaw width batSize (some gamma) = .finite (newBatX width batSize gamma) :=
  rfl

theorem newBatXRaw_none (width batSize : ℚ) : newBatXRaw width batSize none = .nan :=
  rfl

/-- C11, as stated, fails for rotation data without `gamma`: the guard of line 69 tests
only `data.rotation`, so the listener goes on, computes with `undefined` and assigns
`NaN` to the bat position instead of keeping the last commanded one. -/
theorem missing_tilt_ignored_counterexample :
    batXWrite 400 100 { rotation := some { gamma := none } } = some JSNumber.nan ∧
      batXWrite 400 100 { rotation := some { gamma := none } } ≠ none := by
  constructor
  · rfl
  · intro h
    cases h

/-- C11, amended: a sample without rotation data causes no position update: the
listener makes no assignment, the bat keeps its last commanded position and every
other field of the state is unchanged. -/
theorem missing_tilt_ignored (W batSize : ℚ) (g : Game) :
    onDeviceMotion W noRotation g = g ∧
      (onDeviceMotion W noRotation g).entities.bat.position.x = g.entities.bat.position.x ∧
      batXWrite W batSize { rotation := none } = none :=
  ⟨rfl, rfl, rfl⟩

/-! ## Horizontal motion -/

/-! ### Binary64 values used below -/

theorem toDouble_400 : toDouble 400 = 400 := by
  rw [toDouble_of_nonneg (by norm_num)]
  exact roundMagnitude_representable 8 7036874417766400 (by norm_num) (by norm_num)
    (by norm_num) (by norm_num)

theorem toDouble_350 : toDouble 350 = 350 := by
  rw [toDouble_of_nonneg (by norm_num)]
  exact roundMagnitude_representable 8 6157265115545600 (by norm_num) (by norm_num)
    (by norm_num) (by norm_num)

theorem toDouble_500 : toDouble 500 = 500 := by
  rw [toDouble_of_nonneg (by norm_num)]
  exact roundMagnitude_representable 8 8796093022208000 (by norm_num) (by norm_num)
    (by norm_num) (by norm_num)

theorem toDouble_x5_3 : toDouble x5_3 = x5_3 := by
  rw [toDouble_of_nonneg (by norm_num [x5_3])]
  exact roundMagnitude_representable 2 5967269506265907 (by norm_num) (by norm_num [x5_3])
    (by norm_num [x5_3]) (by norm_num [x5_3])

theorem toDouble_d16_7 : toDouble (1 * d16_7) = d16_7 := by
  rw [one_mul, toDouble_of_nonneg (by norm_num [d16_7])]
  exact roundMagnitude_representable 4 4700632111067955 (by norm_num) (by norm_num [d16_7])
    (by norm_num [d16_7]) (by norm_num [d16_7])

theorem toDouble_neg_d16_7 : toDouble (-1 * d16_7) = -d16_7 := by
  rw [toDouble_of_neg (by norm_num [d16_7]),
    roundMagnitude_representable 4 4700632111067955 (by norm_num) (by norm_num [d16_7])
      (by norm_num [d16_7]) (by norm_num [d16_7])]
  ring

/-- In binary64 `5.3 - 16.7` is a tie and rounds to `-11.399999999999999`. -/
theorem toDouble_5_3_sub_16_7 :
    toDouble (x5_3 + -d16_7) = -(1604407367250739 / 140737488355328) := by
  rw [toDouble_of_neg (by norm_num [x5_3, d16_7]),
    roundMagnitude_tie 3 6417629469002956 (by norm_num) (by norm_num [x5_3, d16_7])
      (by norm_num [x5_3, d16_7]) (by norm_num) (Or.inr (by norm_num [x5_3, d16_7]))]
  norm_num

/-- In binary64 `-11.399999999999999 + 16.7` is `5.300000000000001`, one unit in the
last place above `5.3`. -/
theorem toDouble_back_to_5_3 :
    toDouble (-(1604407367250739 / 140737488355328) + d16_7) =
      5967269506265908 / 1125899906842624 := by
  rw [toDouble_of_nonneg (by norm_num [d16_7]),
    roundMagnitude_representable 2 5967269506265908 (by norm_num) (by norm_num [d16_7])
      (by norm_num [d16_7]) (by norm_num [d16_7])]
  norm_num [d16_7]

theorem toDouble_d162 : toDouble (1 * d162) = d162 := by
  rw [one_mul, toDouble_of_nonneg (by norm_num [d162])]
  exact roundMagnitude_representable 7 5702547434771710 (by norm_num) (by norm_num [d162])
    (by norm_num [d162]) (by norm_num [d162])

theorem toDouble_neg_d162 : toDouble (-1 * d162) = -d162 := by
  rw [toDouble_of_neg (by norm_num [d162]),
    roundMagnitude_representable 7 5702547434771710 (by norm_num) (by norm_num [d162])
      (by norm_num [d162]) (by norm_num [d162])]
  ring

/-- In binary64 `350 + 162.0761462041773` is a tie and rounds up to
`512.0761462041773`. -/
theorem toDouble_350_add_162 : toDouble (350 + d162) = 70379209632277 / 137438953472 := by
  rw [toDouble_of_nonneg (by norm_num [d162]),
    roundMagnitude_tie 9 4504269416465728 (by norm_num) (by norm_num [d162])
      (by norm_num [d162]) (by norm_num) (Or.inl (by norm_num [d162]))]
  norm_num

/-- In binary64 `512.0761462041773 - 162.0761462041773` is `350.00000000000006`. -/
theorem toDouble_back_to_350 :
    toDouble (70379209632277 / 137438953472 + -d162) = 6157265115545601 / 17592186044416 := by
  rw [toDouble_of_nonneg (by norm_num [d162]),
    roundMagnitude_representable 8 6157265115545601 (by norm_num) (by norm_num [d162])
      (by norm_num [d162]) (by norm_num [d162])]
  norm_num [d162]

/-! ### Overshoot -/

/-- A tick that carries a ball from inside the arena past a side wall reverses its
horizontal velocity, in any rounded arithmetic. -/
theorem updateWith_vx_of_overshoot (rnd : ℚ → ℚ) (hr : IsRounding rnd) (W H delta : ℚ) (g : Game)
    (hx : rnd g.entities.ball.position.x = g.entities.ball.position.x)
    (hW : rnd W = W)
    (hlo : 0 ≤ g.entities.ball.position.x)
    (hhi : g.entities.ball.position.x ≤ W - g.entities.ball.size)
    (hdelta : 0 < delta)
    (hover : (updateWith rnd W H g delta).entities.ball.position.x < 0 ∨
      rnd ((updateWith rnd W H g delta).entities.ball.position.x + g.entities.ball.size) > W) :
    (updateWith rnd W H g delta).entities.ball.velocity.x = -g.entities.ball.velocity.x ∧
      ((updateWith rnd W H g delta).entities.ball.position.x < 0 →
        g.entities.ball.velocity.x < 0) ∧
      (rnd ((updateWith rnd W H g delta).entities.ball.position.x + g.entities.ball.size) > W →
        0 < g.entities.ball.velocity.x) := by
  rw [updateWith_vx, updateWith_x] at *
  have hleft : rnd (g.entities.ball.position.x + rnd (g.entities.ball.velocity.x * delta)) < 0 →
      g.entities.ball.velocity.x < 0 := by
    intro h
    by_contra hc
    have h1 : 0 ≤ g.entities.ball.velocity.x * delta := mul_nonneg (not_lt.mp hc) (le_of_lt hdelta)
    have h2 : 0 ≤ rnd (g.entities.ball.velocity.x * delta) := by
      have := hr.mono h1
      rwa [hr.zero] at this
    have h3 : 0 ≤ rnd (g.entities.ball.position.x + rnd (g.entities.ball.velocity.x * delta)) := by
      have := hr.mono (add_nonneg hlo h2)
      rwa [hr.zero] at this
    linarith
  have hright : rnd (rnd (g.entities.ball.position.x + rnd (g.entities.ball.velocity.x * delta)) +
      g.entities.ball.size) > W → 0 < g.entities.ball.velocity.x := by
    intro h
    by_contra hc
    have h1 : g.entities.ball.velocity.x * delta ≤ 0 :=
      mul_nonpos_of_nonpos_of_nonneg (not_lt.mp hc) (le_of_lt hdelta)
    have h2 : rnd (g.entities.ball.velocity.x * delta) ≤ 0 := by
      have := hr.mono h1
      rwa [hr.zero] at this
    have h3 : rnd (g.entities.ball.position.x + rnd (g.entities.ball.velocity.x * delta)) ≤
        g.entities.ball.position.x := by
      have := hr.mono (show g.entities.ball.position.x +
        rnd (g.entities.ball.velocity.x * delta) ≤ g.entities.ball.position.x by linarith)
      rwa [hx] at this
    have h4 : rnd (rnd (g.entities.ball.position.x + rnd (g.entities.ball.velocity.x * delta)) +
        g.entities.ball.size) ≤ W := by
      have := hr.mono (show rnd (g.entities.ball.position.x +
        rnd (g.entities.ball.velocity.x * delta)) + g.entities.ball.size ≤ W by linarith)
      rwa [hW] at this
    linarith
  refine ⟨?_, hleft, hright⟩
  rcases hover with h | h
  · have hnot : ¬ rnd (rnd (g.entities.ball.position.x +
        rnd (g.entities.ball.velocity.x * delta)) + g.entities.ball.size) > W := by
      have := hr.mono (show rnd (g.entities.ball.position.x +
        rnd (g.entities.ball.velocity.x * delta)) + g.entities.ball.size ≤ W by linarith)
      rw [hW] at this
      exact not_lt.mpr this
    rw [if_neg hnot, if_pos h, abs_of_neg (hleft h)]
  · rw [if_pos h, abs_of_pos (hright h)]

/-- C12, as stated, fails in the arithmetic of the program.  In binary64 the ball at
`x = 5.3` with `vx = -1` and `delta = 16.7` goes to `-11.399999999999999` and comes back
to `5.300000000000001`, not to `5.3`; and the ball at `x = 350 = W - size` with `vx = 1`
and `delta = 162.0761462041773` comes back to `350.00000000000006`, above `W - size`. -/
theorem overshoot_transient_counterexample :
    ((0 ≤ x5_3 ∧ x5_3 ≤ 400 - 50 ∧ 0 < d16_7 ∧
        (updateWith toDouble 400 800 (sceneAt x5_3 300 (-1) 1) d16_7).entities.ball.position.x <
          0) ∧
      (updateWith toDouble 400 800 (updateWith toDouble 400 800 (sceneAt x5_3 300 (-1) 1) d16_7)
        d16_7).entities.ball.position.x ≠ x5_3) ∧
    (((0 : ℚ) ≤ 350 ∧ (350 : ℚ) ≤ 400 - 50 ∧ 0 < d162 ∧
        toDouble ((updateWith toDouble 400 800 (sceneAt 350 300 1 1) d162).entities.ball.position.x
          + 50) > 400) ∧
      ¬ (updateWith toDouble 400 800 (updateWith toDouble 400 800 (sceneAt 350 300 1 1) d162)
        d162).entities.ball.position.x ≤ 400 - 50) := by
  have hA1 : (updateWith toDouble 400 800 (sceneAt x5_3 300 (-1) 1) d16_7).entities.ball.position.x
      = -(1604407367250739 / 140737488355328) := by
    rw [updateWith_x]
    show toDouble (x5_3 + toDouble (-1 * d16_7)) = _
    rw [toDouble_neg_d16_7, toDouble_5_3_sub_16_7]
  have hAv : (updateWith toDouble 400 800 (sceneAt x5_3 300 (-1) 1) d16_7).entities.ball.velocity.x
      = 1 := by
    have h := (updateWith_vx_of_overshoot toDouble isRounding_toDouble 400 800 d16_7
      (sceneAt x5_3 300 (-1) 1) toDouble_x5_3 toDouble_400 (by norm_num [sceneAt, x5_3])
      (by norm_num [sceneAt, x5_3]) (by norm_num [d16_7])
      (Or.inl (by rw [hA1]; norm_num))).1
    rw [h]
    norm_num [sceneAt]
  have hA2 : (updateWith toDouble 400 800 (updateWith toDouble 400 800 (sceneAt x5_3 300 (-1) 1)
      d16_7) d16_7).entities.ball.position.x = 5967269506265908 / 1125899906842624 := by
    rw [updateWith_x, hA1, hAv, toDouble_d16_7, toDouble_back_to_5_3]
  have hB1 : (updateWith toDouble 400 800 (sceneAt 350 300 1 1) d162).entities.ball.position.x
      = 70379209632277 / 137438953472 := by
    rw [updateWith_x]
    show toDouble (350 + toDouble (1 * d162)) = _
    rw [toDouble_d162, toDouble_350_add_162]
  have hBover : toDouble ((updateWith toDouble 400 800 (sceneAt 350 300 1 1)
      d162).entities.ball.position.x + 50) > 400 := by
    rw [hB1]
    have := toDouble_mono (show (500 : ℚ) ≤ 70379209632277 / 137438953472 + 50 by norm_num)
    rw [toDouble_500] at this
    linarith
  have hBv : (updateWith toDouble 400 800 (sceneAt 350 300 1 1) d162).entities.ball.velocity.x
      = -1 := by
    have h := (updateWith_vx_of_overshoot toDouble isRounding_toDouble 400 800 d162
      (sceneAt 350 300 1 1) toDouble_350 toDouble_400
      (by norm_num [sceneAt]) (by norm_num [sceneAt]) (by norm_num [d162])
      (Or.inr hBover)).1
    rw [h]
    norm_num [sceneAt]
  have hB2 : (updateWith toDouble 400 800 (updateWith toDouble 400 800 (sceneAt 350 300 1 1)
      d162) d162).entities.ball.position.x = 6157265115545601 / 17592186044416 := by
    rw [updateWith_x, hB1, hBv, toDouble_neg_d162, toDouble_back_to_350]
  refine ⟨⟨⟨by norm_num [x5_3], by norm_num [x5_3], by norm_num [d16_7], ?_⟩, ?_⟩,
    ⟨⟨by norm_num, by norm_num, by norm_num [d162], hBover⟩, ?_⟩⟩
  · rw [hA1]
    norm_num
  · rw [hA2]
    norm_num [x5_3]
  · rw [hB2]
    norm_num

/-- C12, amended: if the ball is inside the arena horizontally (`0 ≤ x ≤ W - size`) and
a tick with `delta > 0` carries it past the left or the right wall, that tick reverses
its horizontal velocity (`vx' = -vx`, positive after the left wall, negative after the
right), so a further call of `update` with the same `delta` takes the same step back:
it puts the ball at `x' + (-vx) * delta` as the arithmetic computes it.  This holds in
exact arithmetic and in binary64 alike (`rnd` is the rounding; the ball's `x` and `W`
are numbers it can hold). -/
theorem overshoot_transient (rnd : ℚ → ℚ) (hr : IsRounding rnd) (W H delta : ℚ) (g : Game)
    (hx : rnd g.entities.ball.position.x = g.entities.ball.position.x)
    (hW : rnd W = W)
    (hlo : 0 ≤ g.entities.ball.position.x)
    (hhi : g.entities.ball.position.x ≤ W - g.entities.ball.size)
    (hdelta : 0 < delta)
    (hover : (updateWith rnd W H g delta).entities.ball.position.x < 0 ∨
      rnd ((updateWith rnd W H g delta).entities.ball.position.x + g.entities.ball.size) > W) :
    (updateWith rnd W H g delta).entities.ball.velocity.x = -g.entities.ball.velocity.x ∧
      ((updateWith rnd W H g delta).entities.ball.position.x < 0 →
        0 < (updateWith rnd W H g delta).entities.ball.velocity.x) ∧
      (rnd ((updateWith rnd W H g delta).entities.ball.position.x + g.entities.ball.size) > W →
        (updateWith rnd W H g delta).entities.ball.velocity.x < 0) ∧
      (updateWith rnd W H (updateWith rnd W H g delta) delta).entities.ball.position.x =
        rnd ((updateWith rnd W H g delta).entities.ball.position.x +
          rnd (-g.entities.ball.velocity.x * delta)) := by
  have h := updateWith_vx_of_overshoot rnd hr W H delta g hx hW hlo hhi hdelta hover
  refine ⟨h.1, ?_, ?_, ?_⟩
  · intro hl
    rw [h.1]
    linarith [h.2.1 hl]
  · intro hright
    rw [h.1]
    linarith [h.2.2 hright]
  · rw [updateWith_x rnd W H delta (updateWith rnd W H g delta), h.1]

/-- Witness for C12 (amended), in binary64: the ball at `x = 5.3` with `vx = -1` is
carried to `-11.399999999999999` by a tick of `16.7` and leaves that tick with
`vx = 1`. -/
theorem overshoot_transient_witness :
    (updateWith toDouble 400 800 (sceneAt x5_3 300 (-1) 1) d16_7).entities.ball.position.x < 0 ∧
      (updateWith toDouble 400 800 (sceneAt x5_3 300 (-1) 1) d16_7).entities.ball.velocity.x =
        1 := by
  have hneg : (updateWith toDouble 400 800 (sceneAt x5_3 300 (-1) 1)
      d16_7).entities.ball.position.x < 0 := by
    rw [updateWith_x]
    show toDouble (x5_3 + toDouble (-1 * d16_7)) < 0
    rw [toDouble_neg_d16_7, toDouble_5_3_sub_16_7]
    norm_num
  have h := (overshoot_transient toDouble isRounding_toDouble 400 800 d16_7
    (sceneAt x5_3 300 (-1) 1) toDouble_x5_3 toDouble_400 (by norm_num [sceneAt, x5_3])
    (by norm_num [sceneAt, x5_3]) (by norm_num [d16_7]) (Or.inl hneg)).1
  refine ⟨hneg, ?_⟩
  rw [h]
  norm_num [sceneAt]

/-- C13 (horizontal velocity after a tick): with `x' = x + vx * delta`, the new `vx` is
`-|vx|` if `x' + size > W`, otherwise `|vx|` if `x' < 0`, otherwise `vx`; in particular,
when both wall checks fire, the right-wall check, which comes second, decides. -/
theorem horizontal_velocity_after_tick (W H delta : ℚ) (g : Game) :
    (update W H g delta).entities.ball.velocity.x =
        (if g.entities.ball.position.x + g.entities.ball.velocity.x * delta +
            g.entities.ball.size > W then
          -|g.entities.ball.velocity.x|
        else if g.entities.ball.position.x + g.entities.ball.velocity.x * delta < 0 then
          |g.entities.ball.velocity.x|
        else g.entities.ball.velocity.x) ∧
      (update W H g delta).entities.ball =
        (batCollision H (hitTopWall (hitRightWall W (hitLeftWall (moveBall g.entities.ball delta))))
          g.entities.bat g.running).1 ∧
      (g.entities.ball.position.x + g.entities.ball.velocity.x * delta < 0 →
        g.entities.ball.position.x + g.entities.ball.velocity.x * delta +
            g.entities.ball.size > W →
        (update W H g delta).entities.ball.velocity.x = -|g.entities.ball.velocity.x|) := by
  have h := update_vx W H delta g
  rw [moveBall_x] at h
  refine ⟨h, rfl, ?_⟩
  intro _ hright
  rw [h, if_pos hright]

/-- Witness for C13: in an arena only 20 wide the ball of size 50 at `x' = -21` is
beyond both walls; it leaves the tick with `vx = -1`, as the right wall demands. -/
theorem horizontal_velocity_after_tick_witness :
    (update 20 800 (sceneAt (-5) 300 (-1) 1) 16).entities.ball.velocity.x = -1 := by
  have h := (horizontal_velocity_after_tick 20 800 16 (sceneAt (-5) 300 (-1) 1)).2.2
    (by norm_num [sceneAt]) (by norm_num [sceneAt])
  rw [h]
  norm_num [sceneAt]

/-- C14 (constant speed per axis): a tick preserves the magnitude of each velocity
component, `|vx'| = |vx|` and `|vy'| = |vy|`; each component is kept or negated. -/
theorem constant_speed_per_axis (W H delta : ℚ) (g : Game) :
    |(update W H g delta).entities.ball.velocity.x| = |g.entities.ball.velocity.x| ∧
      |(update W H g delta).entities.ball.velocity.y| = |g.entities.ball.velocity.y| ∧
      ((update W H g delta).entities.ball.velocity.x = g.entities.ball.velocity.x ∨
        (update W H g delta).entities.ball.velocity.x = -g.entities.ball.velocity.x) ∧
      ((update W H g delta).entities.ball.velocity.y = g.entities.ball.velocity.y ∨
        (update W H g delta).entities.ball.velocity.y = -g.entities.ball.velocity.y) := by
  have hx : (update W H g delta).entities.ball.velocity.x = g.entities.ball.velocity.x ∨
      (update W H g delta).entities.ball.velocity.x = -g.entities.ball.velocity.x := by
    rw [update_vx]
    rcases abs_choice g.entities.ball.velocity.x with h | h
    · split_ifs
      · right; rw [h]
      · left; exact h
      · left; rfl
    · split_ifs
      · left; rw [h, neg_neg]
      · right; exact h
      · left; rfl
  have hy : (update W H g delta).entities.ball.velocity.y = g.entities.ball.velocity.y ∨
      (update W H g delta).entities.ball.velocity.y = -g.entities.ball.velocity.y := by
    rw [update_vy, wallCollisions_vy, moveBall_velocity]
    rcases abs_choice g.entities.ball.velocity.y with h | h <;> split_ifs <;> simp [h]
  refine ⟨?_, ?_, hx, hy⟩
  · rcases hx with h | h
    · rw [h]
    · rw [h, abs_neg]
  · rcases hy with h | h
    · rw [h]
    · rw [h, abs_neg]

/-- C15 (exact integration, no clamping): after every tick, whether or not a wall or
the bat is hit, the ball is at `(x + vx * delta, y + vy * delta)`, computed with the
velocity held before the tick. -/
theorem position_integrated_exactly (W H delta : ℚ) (g : Game) :
    (update W H g delta).entities.ball.position =
      { x := g.entities.ball.position.x + g.entities.ball.velocity.x * delta
        y := g.entities.ball.position.y + g.entities.ball.velocity.y * delta } := by
  rw [update_ball, batCollision_position, wallCollisions_position]
  rfl

/-- C16 (frame of the tick): `update` leaves the bat's `x`, `y` and width and the
ball's size as they were; what it writes is confined to the ball's position, the ball's
velocity and `running`. -/
theorem tick_frame (W H delta : ℚ) (g : Game) :
    (update W H g delta).entities.bat.position.x = g.entities.bat.position.x ∧
      (update W H g delta).entities.bat.position.y = g.entities.bat.position.y ∧
      (update W H g delta).entities.bat.size = g.entities.bat.size ∧
      (update W H g delta).entities.ball.size = g.entities.ball.size ∧
      update W H g delta =
        { entities :=
            { ball :=
                { position := (update W H g delta).entities.ball.position
                  size := g.entities.ball.size
                  velocity := (update W H g delta).entities.ball.velocity }
              bat := g.entities.bat }
          running := (update W H g delta).running } := by
  have hs := update_size W H delta g
  refine ⟨rfl, rfl, rfl, hs, ?_⟩
  rw [← hs]
  rfl

/-! ## Successive samples -/

theorem onDeviceMotion_bat_size (W : ℚ) (data : MotionData) (g : Game) :
    (onDeviceMotion W data g).entities.bat.size = g.entities.bat.size := by
  unfold onDeviceMotion
  cases data.rotation <;> rfl

/-- C17 (last sample wins): a sample that carries `gamma` changes only the bat's `x`,
and the new `x` is a function of that `gamma`, the window width and the bat width
alone; so handling any sample and then a second one gives the same state as handling
the second one alone, and handling a sample twice is the same as handling it once. -/
theorem last_sample_wins (W gamma : ℚ) (first : MotionData) (g : Game) :
    onDeviceMotion W (tilt gamma) g =
        { entities :=
            { ball := g.entities.ball
              bat :=
                { position :=
                    { x := newBatX W g.entities.bat.size gamma, y := g.entities.bat.position.y }
                  size := g.entities.bat.size } }
          running := g.running } ∧
      onDeviceMotion W (tilt gamma) (onDeviceMotion W first g) =
        onDeviceMotion W (tilt gamma) g ∧
      onDeviceMotion W first (onDeviceMotion W first g) = onDeviceMotion W first g := by
  refine ⟨rfl, ?_, ?_⟩
  · rw [onDeviceMotion_tilt, onDeviceMotion_tilt, onDeviceMotion_bat_size]
    unfold onDeviceMotion
    cases first.rotation <;> rfl
  · unfold onDeviceMotion
    cases first.rotation <;> rfl

/-! ## Safety of the wall and bat tests -/

/-- C18 (the side walls exclude each other): when the ball is no wider than the arena,
at most one of `x' < 0` and `x' + size > W` holds after integration, whatever the
velocity and the time delta, so the left and the right reflection never both fire in
one tick. -/
theorem side_walls_exclusive (W delta : ℚ) (g : Game) (hfit : g.entities.ball.size ≤ W) :
    ¬ ((moveBall g.entities.ball delta).position.x < 0 ∧
        (moveBall g.entities.ball delta).position.x + (moveBall g.entities.ball delta).size > W) ∧
      ¬ (hitLeftWall (moveBall g.entities.ball delta) ≠ moveBall g.entities.ball delta ∧
        hitRightWall W (hitLeftWall (moveBall g.entities.ball delta)) ≠
          hitLeftWall (moveBall g.entities.ball delta)) := by
  have hex : ¬ ((moveBall g.entities.ball delta).position.x < 0 ∧
      (moveBall g.entities.ball delta).position.x + (moveBall g.entities.ball delta).size > W) := by
    rw [moveBall_size]
    rintro ⟨h1, h2⟩
    linarith
  refine ⟨hex, ?_⟩
  rintro ⟨hl, hr⟩
  apply hex
  constructor
  · by_contra hc
    exact hl (by unfold hitLeftWall; exact if_neg hc)
  · by_contra hc
    apply hr
    unfold hitRightWall
    rw [hitLeftWall_position, hitLeftWall_size]
    exact if_neg hc

/-- Witness for C18: the ball of the source (size 50) in a window 400 wide, thrown far
to the right by a tick of 1000. -/
theorem side_walls_exclusive_witness :
    (initialGame 400 800).entities.ball.size = 50 ∧
      ¬ ((moveBall (initialGame 400 800).entities.ball 1000).position.x < 0 ∧
        (moveBall (initialGame 400 800).entities.ball 1000).position.x +
          (moveBall (initialGame 400 800).entities.ball 1000).size > 400) :=
  ⟨rfl, (side_walls_exclusive 400 1000 (initialGame 400 800) (by norm_num [initialGame])).1⟩

theorem toDouble_50 : toDouble 50 = 50 := by
  rw [toDouble_of_nonneg (by norm_num)]
  exact roundMagnitude_representable 5 7036874417766400 (by norm_num) (by norm_num)
    (by norm_num) (by norm_num)

theorem toDouble_neg_d16_6 : toDouble (-1 * d16_6) = -d16_6 := by
  rw [toDouble_of_neg (by norm_num [d16_6]),
    roundMagnitude_representable 4 4691249611844267 (by norm_num) (by norm_num [d16_6])
      (by norm_num [d16_6]) (by norm_num [d16_6])]
  ring

/-- In binary64 `16.666666666666664 - 16.666666666666668` is exactly `-2 ^ (-48)`,
about `-3.55e-15`. -/
theorem toDouble_y16_6_sub_d16_6 :
    toDouble (y16_6 + -d16_6) = -(1 / 281474976710656) := by
  rw [toDouble_of_neg (by norm_num [y16_6, d16_6]),
    roundMagnitude_representable (-48) 4503599627370496 (by norm_num)
      (by norm_num [y16_6, d16_6]) (by norm_num [y16_6, d16_6]) (by norm_num [y16_6, d16_6])]
  norm_num [y16_6, d16_6]

/-- In binary64 `-2 ^ (-48) + 50` is a tie between `50` and the number next below it,
and rounds to `50`. -/
theorem toDouble_absorbed : toDouble (-(1 / 281474976710656) + 50) = 50 := by
  rw [toDouble_of_nonneg (by norm_num),
    roundMagnitude_tie 5 7036874417766400 (by norm_num) (by norm_num) (by norm_num)
      (by norm_num) (Or.inl (by norm_num))]
  norm_num

theorem toDouble_70_sub_20 : toDouble (70 - 20) = 50 := by
  rw [toDouble_of_nonneg (by norm_num),
    roundMagnitude_representable 5 7036874417766400 (by norm_num) (by norm_num)
      (by norm_num) (by norm_num)]
  norm_num

theorem toDouble_800_sub_20 : toDouble (800 - 20) = 780 := by
  rw [toDouble_of_nonneg (by norm_num),
    roundMagnitude_representable 9 6860952557322240 (by norm_num) (by norm_num)
      (by norm_num) (by norm_num)]
  norm_num

theorem toDouble_300_add_0 : toDouble (300 + toDouble (0 * d16_6)) = 300 := by
  rw [zero_mul, toDouble_zero, add_zero, toDouble_of_nonneg (by norm_num)]
  exact roundMagnitude_representable 8 5277655813324800 (by norm_num) (by norm_num)
    (by norm_num) (by norm_num)

theorem toDouble_150_add_100 : toDouble (150 + 100) = 250 := by
  rw [toDouble_of_nonneg (by norm_num),
    roundMagnitude_representable 7 8796093022208000 (by norm_num) (by norm_num)
      (by norm_num) (by norm_num)]
  norm_num

/-- C19, as stated, fails in the arithmetic of the program when the ball's size equals
`H - 20`.  With `H = 70`, the ball at `y = 16.666666666666664` with `vy = -1` and
`delta = 16.666666666666668`, binary64 gives `y' = -3.55e-15 < 0`, so the top wall
turns the ball downward, and `y' + 50` rounds to `50 ≥ H - 20`; the ball is beside the
bat, and the game stops. -/
theorem rising_ball_cannot_lose_counterexample :
    (sceneAt 300 y16_6 0 (-1)).entities.ball.velocity.y ≤ 0 ∧
      (sceneAt 300 y16_6 0 (-1)).entities.ball.size ≤ 70 - 20 ∧
      (sceneAt 300 y16_6 0 (-1)).running = true ∧
      (updateWith toDouble 400 70 (sceneAt 300 y16_6 0 (-1)) d16_6).running = false := by
  have hy : (moveBallWith toDouble (sceneAt 300 y16_6 0 (-1)).entities.ball d16_6).position.y =
      -(1 / 281474976710656) := by
    show toDouble (y16_6 + toDouble (-1 * d16_6)) = _
    rw [toDouble_neg_d16_6, toDouble_y16_6_sub_d16_6]
  have hx : (moveBallWith toDouble (sceneAt 300 y16_6 0 (-1)).entities.ball d16_6).position.x =
      300 := by
    show toDouble (300 + toDouble (0 * d16_6)) = _
    exact toDouble_300_add_0
  have hreg : inBatRegionWith toDouble 70 (wallCollisionsWith toDouble 400
      (moveBallWith toDouble (sceneAt 300 y16_6 0 (-1)).entities.ball d16_6)) := by
    unfold inBatRegionWith
    rw [wallCollisionsWith_vy, wallCollisionsWith_position, wallCollisionsWith_size, hy]
    constructor
    · rw [if_pos (by norm_num)]
      show |(-1 : ℚ)| > 0
      norm_num
    · show toDouble (-(1 / 281474976710656) + 50) ≥ toDouble (70 - 20)
      rw [toDouble_absorbed, toDouble_70_sub_20]
  have hmiss : ¬ overlapsBatWith toDouble (wallCollisionsWith toDouble 400
      (moveBallWith toDouble (sceneAt 300 y16_6 0 (-1)).entities.ball d16_6))
      (sceneAt 300 y16_6 0 (-1)).entities.bat := by
    unfold overlapsBatWith
    rw [wallCollisionsWith_position, hx]
    rintro ⟨_, h⟩
    have h2 : (300 : ℚ) ≤ toDouble (150 + 100) := h
    rw [toDouble_150_add_100] at h2
    norm_num at h2
  refine ⟨by norm_num [sceneAt], by norm_num [sceneAt], rfl, ?_⟩
  rw [updateWith_running, if_pos ⟨hreg, hmiss⟩]

/-- C19, amended: if `vy ≤ 0` before the tick and the ball's size is strictly less than
`H - 20` as the program computes it, the tick leaves `running` as it was, also when the
top wall turns the ball downward in that tick; in particular the tick that follows a
bounce on the bat never ends the run.  This holds in exact arithmetic and in binary64
alike (`rnd` is the rounding; the ball's size is a number it can hold). -/
theorem rising_ball_cannot_lose (rnd : ℚ → ℚ) (hr : IsRounding rnd) (W H delta : ℚ) (g : Game)
    (hsize : rnd g.entities.ball.size = g.entities.ball.size)
    (hfit : g.entities.ball.size < rnd (H - 20)) :
    (g.entities.ball.velocity.y ≤ 0 → (updateWith rnd W H g delta).running = g.running) ∧
      (∀ (before : Game) (delta0 : ℚ), g = updateWith rnd W H before delta0 →
        inBatRegionWith rnd H
          (wallCollisionsWith rnd W (moveBallWith rnd before.entities.ball delta0)) →
        overlapsBatWith rnd
          (wallCollisionsWith rnd W (moveBallWith rnd before.entities.ball delta0))
          before.entities.bat →
        (updateWith rnd W H g delta).running = g.running) := by
  have main : g.entities.ball.velocity.y ≤ 0 →
      (updateWith rnd W H g delta).running = g.running := by
    intro hv
    rw [updateWith_running, if_neg]
    rintro ⟨⟨hdown, hline⟩, _⟩
    rw [wallCollisionsWith_vy] at hdown
    rw [wallCollisionsWith_position, wallCollisionsWith_size] at hline
    by_cases htop : (moveBallWith rnd g.entities.ball delta).position.y < 0
    · have h1 : rnd ((moveBallWith rnd g.entities.ball delta).position.y +
          (moveBallWith rnd g.entities.ball delta).size) ≤ g.entities.ball.size := by
        have := hr.mono (show (moveBallWith rnd g.entities.ball delta).position.y +
          (moveBallWith rnd g.entities.ball delta).size ≤ g.entities.ball.size by
            show _ + g.entities.ball.size ≤ _
            linarith)
        rwa [hsize] at this
      linarith
    · rw [if_neg htop] at hdown
      have : (moveBallWith rnd g.entities.ball delta).velocity.y = g.entities.ball.velocity.y :=
        rfl
      linarith
  refine ⟨main, ?_⟩
  intro before delta0 hg hreg hov
  apply main
  rw [hg, updateWith_vy, if_pos ⟨hreg, hov⟩]
  exact neg_nonpos.mpr (abs_nonneg _)

/-- Witness for C19 (amended), in binary64: in a window 800 high the ball at `y = 11`
with `vy = -1` crosses the top wall in a tick of 16 and is turned downward, and the
game goes on. -/
theorem rising_ball_cannot_lose_witness :
    (sceneAt 175 11 1 (-1)).entities.ball.velocity.y ≤ 0 ∧
      (updateWith toDouble 400 800 (sceneAt 175 11 1 (-1)) 16).running = true :=
  ⟨by norm_num [sceneAt],
    (rising_ball_cannot_lose toDouble isRounding_toDouble 400 800 16 (sceneAt 175 11 1 (-1))
      toDouble_50
      (by
        show (50 : ℚ) < toDouble (800 - 20)
        rw [toDouble_800_sub_20]
        norm_num)).1 (by norm_num [sceneAt])⟩

end BatBall
